import Mathlib

/-!
Shallow embedding of the eccoxide elliptic-curve library core
(projective point layer, affine layer, field byte codec, limb
comparisons, and the per-curve sqrt and inverse addition chains),
together with theorems settling the specification claims.

The field backend ("fiat" kernels) and the per-curve constant tables
are external to the repository; following the specification they are
modelled by `ZMod p` arithmetic and by explicit numeric constants.
Everything else is translated directly from the Rust sources.
-/

set_option maxHeartbeats 1000000
set_option maxRecDepth 20000
set_option linter.unusedVariables false
set_option linter.unreachableTactic false
set_option linter.unusedTactic false

/-- Sign of a field element, from `curve/field.rs`. -/
inductive Sign where
  | Positive : Sign
  | Negative : Sign
deriving DecidableEq, Repr

/-- CtOption pairs a presence flag with a value, from `mp/ct.rs`.
The `Choice` word is modelled by `Bool`. -/
structure CtOption (T : Type) where
  present : Bool
  t : T

/-- The `into_option` conversion of `CtOption`, from `mp/ct.rs`. -/
def CtOption.into_option {T : Type} (c : CtOption T) : Option T :=
  if c.present then some c.t else none

/-- Weierstrass curve descriptor: the `a`, `b` and precomputed `3*b`
constants exposed by the `WeierstrassCurve` trait (`curve/weierstrass.rs`). -/
structure WCurve (F : Type) where
  a : F
  b : F
  b3 : F

/-- Projective point (X, Y, Z) over a field element type, from
`curve/projective.rs`. -/
structure ProjPoint (F : Type) where
  x : F
  y : F
  z : F
deriving DecidableEq, Repr

/-- Affine point (x, y), from `curve/affine.rs`. -/
structure AffPoint (F : Type) where
  x : F
  y : F
deriving DecidableEq, Repr

namespace ProjPoint

variable {F : Type} [Field F] [DecidableEq F]

/-- Equivalence-class test by cross multiplication, from
`Point::is_equivalent` in `curve/projective.rs`: the two `ct_eq`
field comparisons combined with `&`. -/
def is_equivalent (p q : ProjPoint F) : Bool :=
  decide (p.x * q.z = q.x * p.z) && decide (p.y * q.z = q.y * p.z)

/-- Infinity-test `Z == 0`, from `Point::is_infinity`. -/
def is_infinity (p : ProjPoint F) : Bool :=
  decide (p.z = 0)

/-- The point at infinity (0 : 1 : 0), from `Point::infinity`. -/
def infinity : ProjPoint F := { x := 0, y := 1, z := 0 }

/-- Lift of an affine point, from `Point::from_affine`. -/
def from_affine (p : AffPoint F) : ProjPoint F :=
  { x := p.x, y := p.y, z := 1 }

/-- Complete addition for arbitrary `a` (Algorithm 1 of the complete
addition formulas paper), translated line by line from
`Point::add_different` in `curve/projective.rs`.  The source body is a
straight-line sequence with no assertion. -/
def add_different (self other : ProjPoint F) (curve : WCurve F) : ProjPoint F :=
  let t0 := self.x * other.x
  let t1 := self.y * other.y
  let t2 := self.z * other.z
  let t3 := self.x + self.y
  let t4 := other.x + other.y
  let t3 := t3 * t4
  let t4 := t0 + t1
  let t3 := t3 - t4
  let t4 := self.x + self.z
  let t5 := other.x + other.z
  let t4 := t4 * t5
  let t5 := t0 + t2
  let t4 := t4 - t5
  let t5 := self.y + self.z
  let x3 := other.y + other.z
  let t5 := t5 * x3
  let x3 := t1 + t2
  let t5 := t5 - x3
  let z3 := curve.a * t4
  let x3 := curve.b3 * t2
  let z3 := x3 + z3
  let x3 := t1 - z3
  let z3 := t1 + z3
  let y3 := x3 * z3
  let t1 := t0 + t0
  let t1 := t1 + t0
  let t2 := curve.a * t2
  let t4 := curve.b3 * t4
  let t1 := t1 + t2
  let t2 := t0 - t2
  let t2 := curve.a * t2
  let t4 := t4 + t2
  let t0 := t1 * t4
  let y3 := y3 + t0
  let t0 := t5 * t4
  let x3 := t3 * x3
  let x3 := x3 - t0
  let t0 := t3 * t1
  let z3 := t5 * z3
  let z3 := z3 + t0
  { x := x3, y := y3, z := z3 }

/-- Doubling formula for arbitrary `a` (Algorithm 3), translated from
`Point::double` in `curve/projective.rs`. -/
def double (self : ProjPoint F) (curve : WCurve F) : ProjPoint F :=
  let t0 := self.x * self.x
  let t1 := self.y * self.y
  let t2 := self.z * self.z
  let t3 := self.x * self.y
  let t3 := t3 + t3
  let z3 := self.x * self.z
  let z3 := z3 + z3
  let x3 := curve.a * z3
  let y3 := curve.b3 * t2
  let y3 := x3 + y3
  let x3 := t1 - y3
  let y3 := t1 + y3
  let y3 := x3 * y3
  let x3 := t3 * x3
  let z3 := curve.b3 * z3
  let t2 := curve.a * t2
  let t3 := t0 - t2
  let t3 := curve.a * t3
  let t3 := t3 + z3
  let z3 := t0 + t0
  let t0 := z3 + t0
  let t0 := t0 + t2
  let t0 := t0 * t3
  let y3 := y3 + t0
  let t2 := self.y * self.z
  let t2 := t2 + t2
  let t0 := t2 * t3
  let x3 := x3 - t0
  let z3 := t2 * t1
  let z3 := z3 + z3
  let z3 := z3 + z3
  { x := x3, y := y3, z := z3 }

/-- Dispatcher between doubling and complete addition, from
`Point::add_or_double` in `curve/projective.rs`. -/
def add_or_double (self other : ProjPoint F) (curve : WCurve F) : ProjPoint F :=
  if is_equivalent self other then double self curve
  else add_different self other curve

/-- Point negation flips only the Y coordinate, from the `Neg`
implementation in `curve/projective.rs`. -/
def pneg (p : ProjPoint F) : ProjPoint F :=
  { x := p.x, y := -p.y, z := p.z }

/-- One inner loop step of `scalar_mul_daa_limbs8`: the state is the
pair (accumulator `q`, running point `a`); the bit test is
`digit & (1 << i) != 0` from the source. -/
def daa_step (curve : WCurve F) (digit : Nat)
    (qa : ProjPoint F × ProjPoint F) (i : Nat) : ProjPoint F × ProjPoint F :=
  let q := if digit &&& (1 <<< i) ≠ 0 then add_or_double qa.1 qa.2 curve else qa.1
  (q, double qa.2 curve)

/-- Scalar multiplication by double-and-add, translated from
`Point::scalar_mul_daa_limbs8` in `curve/projective.rs`:
`a` starts as the input point, `q` as infinity, the loop runs over
`n.iter().rev()` and for each byte over bit indices `0..8`. -/
def scalar_mul_daa_limbs8 (self : ProjPoint F) (n : List Nat) (curve : WCurve F) :
    ProjPoint F :=
  (n.reverse.foldl
    (fun qa digit => (List.range 8).foldl (daa_step curve digit) qa)
    (infinity, self)).1

/-- Public scalar multiplication entry point, from `Point::scale`. -/
def scale (self : ProjPoint F) (n : List Nat) (curve : WCurve F) : ProjPoint F :=
  scalar_mul_daa_limbs8 self n curve

/-- The algorithm claimed by the specification for `scale`: the
accumulator starts at infinity, scalar bytes are processed
most-significant-byte first, bits from bit 7 down to bit 0, the
accumulator is always doubled and the input point added when the
current bit is 1.  Stated from the claim text for comparison with
`scalar_mul_daa_limbs8`. -/
def scalar_mul_msb_claimed (self : ProjPoint F) (n : List Nat) (curve : WCurve F) :
    ProjPoint F :=
  n.foldl
    (fun q digit => (List.range 8).foldl
      (fun q i =>
        let q := double q curve
        if digit &&& (1 <<< (7 - i)) ≠ 0 then add_or_double q self curve else q) q)
    infinity

/-- Scalar bits in the order the code actually consumes them:
bytes from the last (least significant) to the first, and inside each
byte bit 0 up to bit 7. -/
def bits_lsb_first (n : List Nat) : List Bool :=
  n.reverse.flatMap (fun digit => (List.range 8).map (fun i => digit.testBit i))

/-- Double-and-add over an explicit least-significant-bit-first bit
list: the running copy of the input point is doubled at every bit and
added to the accumulator when the bit is set. -/
def daa_lsb_bits (self : ProjPoint F) (bits : List Bool) (curve : WCurve F) :
    ProjPoint F :=
  (bits.foldl
    (fun qa bit =>
      ((if bit then add_or_double qa.1 qa.2 curve else qa.1), double qa.2 curve))
    (infinity, self)).1

/-- The projective on-curve predicate: the homogenization of
y^2 = x^3 + a x + b by the Z coordinate. -/
def onCurve (curve : WCurve F) (p : ProjPoint F) : Prop :=
  p.y * p.y * p.z
    = p.x * p.x * p.x + curve.a * p.x * (p.z * p.z) + curve.b * (p.z * p.z * p.z)

instance (curve : WCurve F) (p : ProjPoint F) : Decidable (onCurve curve p) := by
  unfold onCurve
  infer_instance

/-- Panic-aware view of `Point::add_different` from `curve/projective.rs`:
the source body is straight-line code with no assertion, so every call,
including one with two equal points, returns a value. -/
def add_different_result (self other : ProjPoint F) (curve : WCurve F) :
    Option (ProjPoint F) :=
  some (add_different self other curve)

/-- Conversion to affine as in the legacy macro implementations
(`curve/macros.rs`, `curve/bigint/curve_macros.rs`): `None` at infinity,
otherwise scale by the inverse of Z. -/
def legacy_to_affine (p : ProjPoint F) : Option (AffPoint F) :=
  if p.z = 0 then none
  else some { x := p.x * p.z⁻¹, y := p.y * p.z⁻¹ }

/-- Panic-aware view of the legacy `add_different` of `curve/macros.rs`
line 452 and `curve/bigint/curve_macros.rs` line 169: it starts with
`assert!(self != other)` (point equality there compares the `to_affine`
images), modelled as returning no value, and then runs the same
Algorithm 1 sequence as the generic projective implementation. -/
def legacy_add_different (self other : ProjPoint F) (curve : WCurve F) :
    Option (ProjPoint F) :=
  if legacy_to_affine self = legacy_to_affine other then none
  else some (add_different self other curve)

end ProjPoint

section ToyCurve

/-! A small concrete instantiation used to evaluate the projective layer
on explicit inputs: the curve y^2 = x^3 + x + 3 over GF(13). -/

instance fact_prime_13 : Fact (Nat.Prime 13) := ⟨by norm_num⟩

/-- Toy curve y^2 = x^3 + x + 3 over GF(13) used for concrete
evaluations of the generic point formulas. -/
def toyCurve : WCurve (ZMod 13) := { a := 1, b := 3, b3 := 9 }

/-- Concrete on-curve point (0, 4, 1) of the toy curve. -/
def toyP : ProjPoint (ZMod 13) := { x := 0, y := 4, z := 1 }

end ToyCurve

/-! Limb comparison primitives from `mp/limbs.rs` and the byte codec of
the fiat field macros (`curve/fiat/field_macros.rs`). -/

/-- Subtract-with-borrow on one 64-bit limb, from `limb_subborrow` in
`mp/limbs.rs` (borrowed there from the fiat-crypto subborrow routine).
The i128 arithmetic right shift by 64 equals, on the value range
reachable here, the sign test written below; the low 64 bits are the
value modulo 2^64. -/
def limb_subborrow (arg1 arg2 arg3 : Nat) : Nat × Nat :=
  let x1 : Int := (arg2 : Int) - (arg1 : Int) - (arg3 : Int)
  let x2 : Int := if x1 < 0 then -1 else 0
  let x3 : Nat := (x1 % ((2 : Int) ^ 64)).toNat
  (x3, (0 - x2).toNat)

/-- Strict less-than on equally sized little-endian limb arrays, from
`limbsle_lt` in `mp/limbs.rs`: a subborrow chain from the low limbs up,
returning the final borrow as a `Choice`. -/
def limbsle_lt (a b : List Nat) : Bool :=
  let borrow := (a.zip b).foldl
    (fun borrow xy => (limb_subborrow borrow xy.1 xy.2).2) 0
  decide (borrow ≠ 0)

/-- Value of a little-endian base-2^64 limb list. -/
def leNat (limbs : List Nat) : Nat :=
  limbs.foldr (fun l acc => l + 2 ^ 64 * acc) 0

/-- Value of a big-endian byte list, the integer a serialized field
element denotes. -/
def beNat (bytes : List Nat) : Nat :=
  bytes.foldl (fun acc b => acc * 256 + b) 0

/-- Fixed-width big-endian byte encoding of a natural number.
Modelled from the spec: the opaque fiat backend converts between the
canonical integer value and its big-endian byte array of the fixed
per-curve width. -/
def toBytesBE : Nat → Nat → List Nat
  | 0, _ => []
  | w + 1, v => toBytesBE w (v / 256) ++ [v % 256]

/-- Little-endian base-2^64 limb decomposition of a natural number.
Modelled from the spec: the opaque `fiat_from_bytes` kernel packs a
little-endian byte buffer into little-endian 64-bit limbs, preserving
the value. -/
def natToLimbsLE : Nat → Nat → List Nat
  | 0, _ => []
  | k + 1, v => v % 2 ^ 64 :: natToLimbsLE k (v / 2 ^ 64)

/-- Checked byte deserialization, from `from_bytes` in the montgomery
arm of `fiat_field_ops_impl` (`curve/fiat/field_macros.rs` lines
424-445): reverse the big-endian bytes, pack into limbs via the opaque
`fiat_from_bytes` (modelled by `natToLimbsLE` of the byte value),
compare against the little-endian limbs of the prime with the
`limbsle_lt` subborrow chain, and return a value only when smaller.
The element is represented by its canonical integer value; the
Montgomery conversion performed by the source is a representation
change internal to the opaque backend. -/
def from_bytes (k p : Nat) (bytes : List Nat) : Option Nat :=
  let out := natToLimbsLE k (beNat bytes)
  let pl := natToLimbsLE k p
  if limbsle_lt out pl then some (beNat bytes) else none

/-- Unchecked byte deserialization, from `from_bytes_unchecked` in
`curve/fiat/field_macros.rs` (montgomery arm lines 408-418, solinas
arm lines 509-517): reverse the bytes and pack them into limbs with no
range comparison whatsoever; the byte value is taken as is. -/
def from_bytes_unchecked (bytes : List Nat) : Nat :=
  beNat bytes

/-- Byte serialization, from `to_bytes` in `curve/fiat/field_macros.rs`:
the canonical (non-Montgomery) value written as fixed-width big-endian
bytes via the opaque `fiat_to_bytes` kernel. -/
def to_bytes (w v : Nat) : List Nat :=
  toBytesBE w v

/-- Prime of the p192k1 base field, from the module documentation of
`curve/sec2/p192k1.rs`: 2^192 - 2^32 - 2^12 - 2^8 - 2^7 - 2^6 - 2^3 - 1. -/
def p192k1_P : Nat :=
  2 ^ 192 - 2 ^ 32 - 2 ^ 12 - 2 ^ 8 - 2 ^ 7 - 2 ^ 6 - 2 ^ 3 - 1

/-- Prime of the p256k1 base field.  Modelled from the spec: the
library implements secp256k1, whose SEC2 base field prime is
2^256 - 2^32 - 977. -/
def p256k1_P : Nat :=
  2 ^ 256 - 2 ^ 32 - 977

/-- Fuel-driven modular exponentiation by squaring, used to evaluate
large powers inside primality certificates. -/
def powModAux : Nat → Nat → Nat → Nat → Nat
  | 0, _, _, m => 1 % m
  | fuel + 1, b, e, m =>
    if e = 0 then 1 % m
    else
      let r := powModAux fuel (b * b % m) (e / 2) m
      if e % 2 = 1 then r * b % m else r

/-- Squaring of a field element; the opaque fiat `square` kernel
satisfies `self.square() == self * self` per its documented contract in
`curve/fiat/field_macros.rs`. -/
def fe_square {F : Type} [CommRing F] (x : F) : F := x * x

/-- Repeated squaring, from `square_rep` in
`curve/fiat/field_macros.rs`: one squaring followed by `count - 1`
further squarings. -/
def square_rep {F : Type} [CommRing F] (x : F) (count : Nat) : F :=
  (fun y => y * y)^[count - 1] (fe_square x)

namespace P192K1

/-- Square root of a p192k1 field element, translated line by line from
`FieldElement::sqrt` in `curve/sec2/p192k1.rs`: a fixed addition chain
followed by the self check `r * r == self` that drives the `CtOption`
presence flag (`ct_eq` is subtract-and-test-zero, i.e. equality). -/
def sqrt (self : ZMod p192k1_P) : CtOption (ZMod p192k1_P) :=
  let x2 := fe_square self * self
  let x3 := fe_square x2 * self
  let x6 := square_rep x3 3 * x3
  let x9 := square_rep x6 3 * x3
  let x18 := square_rep x9 9 * x9
  let x19 := fe_square x18 * self
  let x38 := square_rep x19 19 * x19
  let x76 := square_rep x38 38 * x38
  let x152 := square_rep x76 76 * x76
  let x158 := square_rep x152 6 * x6
  let x159 := fe_square x158 * self
  let t1 := square_rep x159 20 * x19
  let t1 := square_rep t1 4 * x3
  let t1 := square_rep t1 6 * x3
  let r := t1 * t1
  let r2 := r * r
  { present := decide (r2 = self), t := r }

/-- Multiplicative inverse of a p192k1 field element, from
`FieldElement::inverse` in `curve/sec2/p192k1.rs`: the
`assert!(!self.is_zero())` guard is modelled by returning no value for
zero, followed by the fixed addition chain for the exponent p - 2. -/
def inverse (self : ZMod p192k1_P) : Option (ZMod p192k1_P) :=
  if self = 0 then none
  else some (
    let x2 := fe_square self * self
    let x3 := fe_square x2 * self
    let x6 := square_rep x3 3 * x3
    let x9 := square_rep x6 3 * x3
    let x18 := square_rep x9 9 * x9
    let x19 := fe_square x18 * self
    let x38 := square_rep x19 19 * x19
    let x76 := square_rep x38 38 * x38
    let x152 := square_rep x76 76 * x76
    let x158 := square_rep x152 6 * x6
    let x159 := fe_square x158 * self
    let t1 := square_rep x159 20 * x19
    let t1 := square_rep t1 4 * x3
    let t1 := square_rep t1 5 * x2
    let t1 := square_rep t1 2 * self
    let t1 := square_rep t1 2 * self
    t1)

/-- Order of the secp192k1 group.  Modelled from the spec: the scalar
type is a field element over the curve's group order, whose SEC2 value
is this constant (the `params` table is outside the sources). -/
def p192k1_ORDER : Nat := 0xFFFFFFFFFFFFFFFFFFFFFFFE26F2FC170F69466A74DEFD8D

/-- Multiplicative inverse of a p192k1 scalar, from `Scalar::inverse`
in `curve/sec2/p192k1.rs`: the `assert!(!self.is_zero())` guard
modelled by returning no value for zero, then the fixed addition chain
for the exponent n - 2 over the group order n. -/
def scalar_inverse (self : ZMod p192k1_ORDER) : Option (ZMod p192k1_ORDER) :=
  if self = 0 then none
  else some (
    let x2 := fe_square self * self
    let x3 := fe_square x2 * self
    let x4 := fe_square x3 * self
    let x6 := square_rep x3 3 * x3
    let x9 := square_rep x6 3 * x3
    let x18 := square_rep x9 9 * x9
    let x19 := fe_square x18 * self
    let x38 := square_rep x19 19 * x19
    let x76 := square_rep x38 38 * x38
    let x95 := square_rep x76 19 * x19
    let t1 := square_rep x95 4 * self
    let t1 := square_rep t1 4 * x2
    let t1 := square_rep t1 5 * x4
    let t1 := square_rep t1 3 * self
    let t1 := square_rep t1 7 * x6
    let t1 := square_rep t1 6 * self
    let t1 := square_rep t1 4 * x3
    let t1 := square_rep t1 8 * x4
    let t1 := square_rep t1 3 * x2
    let t1 := square_rep t1 2 * self
    let t1 := square_rep t1 3 * self
    let t1 := square_rep t1 2 * self
    let t1 := square_rep t1 5 * x2
    let t1 := square_rep t1 4 * x2
    let t1 := square_rep t1 2 * self
    let t1 := square_rep t1 2 * self
    let t1 := square_rep t1 5 * x3
    let t1 := square_rep t1 2 * self
    let t1 := square_rep t1 4 * x2
    let t1 := square_rep t1 5 * x4
    let t1 := square_rep t1 7 * x6
    let t1 := square_rep t1 3 * x2
    let t1 := square_rep t1 4 * self
    let t1 := square_rep t1 3 * x2
    t1)

end P192K1

namespace P256K1

/-- Square root of a p256k1 field element, translated line by line from
`FieldElement::sqrt` in `curve/sec2/p256k1/fe.rs`: the fixed addition
chain and the final `r2 == self` validation driving the presence flag. -/
def sqrt (self : ZMod p256k1_P) : CtOption (ZMod p256k1_P) :=
  let x2 := fe_square self * self
  let x3 := fe_square x2 * self
  let x6 := square_rep x3 3 * x3
  let x9 := square_rep x6 3 * x3
  let x11 := square_rep x9 2 * x2
  let x22 := square_rep x11 11 * x11
  let x44 := square_rep x22 22 * x22
  let x88 := square_rep x44 44 * x44
  let x176 := square_rep x88 88 * x88
  let x220 := square_rep x176 44 * x44
  let x223 := square_rep x220 3 * x3
  let t1 := square_rep x223 23 * x22
  let t1 := square_rep t1 6 * x2
  let t1 := t1 * t1
  let r := t1 * t1
  let r2 := r * r
  { present := decide (r2 = self), t := r }

/-- The inverse addition chain `r_inverse` of
`FieldElement` in `curve/sec2/p256k1/fe.rs`. -/
def r_inverse (self : ZMod p256k1_P) : ZMod p256k1_P :=
  let x2 := fe_square self * self
  let x3 := fe_square x2 * self
  let x6 := square_rep x3 3 * x3
  let x9 := square_rep x6 3 * x3
  let x11 := square_rep x9 2 * x2
  let x22 := square_rep x11 11 * x11
  let x44 := square_rep x22 22 * x22
  let x88 := square_rep x44 44 * x44
  let x176 := square_rep x88 88 * x88
  let x220 := square_rep x176 44 * x44
  let x223 := square_rep x220 3 * x3
  let t1 := square_rep x223 23 * x22
  let t1 := square_rep t1 5 * self
  let t1 := square_rep t1 3 * x2
  let t1 := square_rep t1 2
  t1 * self

/-- Multiplicative inverse of a p256k1 field element, from
`FieldElement::inverse` in `curve/sec2/p256k1/fe.rs`: the
`assert!(!self.is_zero())` guard modelled by returning no value for
zero, then `r_inverse`. -/
def inverse (self : ZMod p256k1_P) : Option (ZMod p256k1_P) :=
  if self = 0 then none
  else some (r_inverse self)

/-- Order of the secp256k1 group.  Modelled from the spec: the scalar
type is a field element over the curve's group order, whose SEC2 value
is this constant (the `params` table is outside the sources). -/
def p256k1_ORDER : Nat :=
  0xFFFFFFFFFFFFFFFFFFFFFFFFFFFFFFFEBAAEDCE6AF48A03BBFD25E8CD0364141

/-- Panic-aware view of the secp256k1 `Scalar::inverse`, translated
line by line from `curve/sec2/p256k1/gm.rs` (line 117): unlike the
other fiat-backed inverses its body contains no
`assert!(!self.is_zero())` guard and no fallible wrapper — it is the
bare addition chain, so every call, the zero input included, returns a
value. -/
def scalar_inverse (self : ZMod p256k1_ORDER) : Option (ZMod p256k1_ORDER) :=
  some (
    let u2 := fe_square self
    let x2 := u2 * self
    let u5 := u2 * x2
    let x3 := u5 * u2
    let u9 := x3 * u2
    let u11 := u9 * u2
    let u13 := u11 * u2
    let x6 := fe_square (fe_square u13) * u11
    let x8 := fe_square (fe_square x6) * x2
    let x14 := square_rep x8 6 * x6
    let x28 := square_rep x14 14 * x14
    let x56 := square_rep x28 28 * x28
    let x112 := square_rep x56 56 * x56
    let x126 := square_rep x112 14 * x14
    let t := square_rep x126 3 * u5
    let t := square_rep t 4 * x3
    let t := square_rep t 4 * u5
    let t := square_rep t 5 * u11
    let t := square_rep t 4 * u11
    let t := square_rep t 4 * x3
    let t := square_rep t 5 * x3
    let t := square_rep t 6 * u13
    let t := square_rep t 4 * u5
    let t := square_rep t 3 * x3
    let t := square_rep t 5 * u9
    let t := square_rep t 6 * u5
    let t := square_rep t 10 * x3
    let t := square_rep t 4 * x3
    let t := square_rep t 9 * x8
    let t := square_rep t 5 * u9
    let t := square_rep t 6 * u11
    let t := square_rep t 4 * u13
    let t := square_rep t 5 * x2
    let t := square_rep t 6 * u13
    let t := square_rep t 10 * u13
    let t := square_rep t 4 * u9
    let t := square_rep t 6 * self
    let t := square_rep t 8 * x6
    t)

end P256K1

/-- Point decompression, translated from `Point::decompress` in
`curve/affine.rs`: compute the curve equation right-hand side
`yy = x^3 + A x + B`, take its field square root (`None` when absent),
then pick the root or its negation so that the sign matches the
request.  The field's `sqrt` and `sign` trait methods are passed in as
functions, as the generic code receives them from the `FieldSqrt`
trait. -/
def AffPoint.decompress {F : Type} [CommRing F]
    (sqrtF : F → CtOption F) (signF : F → Sign)
    (x : F) (y_sign : Sign) (curve : WCurve F) : Option (AffPoint F) :=
  let yy := fe_square x * x + (curve.a * x) + curve.b
  match (sqrtF yy).into_option with
  | none => none
  | some y =>
      let found_sign := signF y
      let ny := -y
      if found_sign = y_sign then some { x := x, y := y }
      else some { x := x, y := ny }

namespace P192K1

/-- Sign of a p192k1 field element, from `sign` in the montgomery arm
of `fiat_field_ops_impl` (`curve/fiat/field_macros.rs` lines 386-394):
the low bit of the canonical (non-Montgomery) value, 1 meaning
Negative. -/
def sign (x : ZMod p192k1_P) : Sign :=
  if x.val % 2 = 1 then Sign.Negative else Sign.Positive

/-- The secp192k1 curve constants over its base field.  Modelled from
the spec: the curve satisfies the `WeierstrassCurveA0` marker, so
A = 0, and its SEC2 B constant is 3 (with the precomputed 3B = 9); the
`params` byte tables are outside the sources. -/
def curve : WCurve (ZMod p192k1_P) := { a := 0, b := 3, b3 := 9 }

end P192K1

namespace ProjPoint

variable {F : Type} [Field F] [DecidableEq F]

theorem and_shift_ne_iff_testBit (d i : Nat) :
    (d &&& (1 <<< i) ≠ 0) ↔ d.testBit i = true := by
  rw [Nat.shiftLeft_eq, one_mul, Nat.and_two_pow]
  cases h : d.testBit i <;> simp [h]

theorem byte_foldl_eq_bits (curve : WCurve F) (digit : Nat)
    (qa : ProjPoint F × ProjPoint F) :
    (List.range 8).foldl (daa_step curve digit) qa
      = ((List.range 8).map (fun i => digit.testBit i)).foldl
          (fun qa bit =>
            ((if bit then add_or_double qa.1 qa.2 curve else qa.1),
             double qa.2 curve)) qa := by
  have h8 : List.range 8 = [0, 1, 2, 3, 4, 5, 6, 7] := by decide
  rw [h8]
  simp only [List.map, List.foldl, daa_step]
  simp only [and_shift_ne_iff_testBit]

theorem foldl_bytes_eq_foldl_bits (curve : WCurve F) (l : List Nat)
    (qa : ProjPoint F × ProjPoint F) :
    l.foldl (fun qa digit => (List.range 8).foldl (daa_step curve digit) qa) qa
      = (l.flatMap (fun digit => (List.range 8).map (fun i => digit.testBit i))).foldl
          (fun qa bit =>
            ((if bit then add_or_double qa.1 qa.2 curve else qa.1),
             double qa.2 curve)) qa := by
  induction l generalizing qa with
  | nil => rfl
  | cons d l ih =>
      simp only [List.foldl_cons, List.flatMap_cons, List.foldl_append]
      rw [← byte_foldl_eq_bits, ih]

end ProjPoint

/-- C1 (counterexample): the claimed algorithm (most-significant-byte
first, most-significant-bit first, accumulator doubled at every step)
does not compute what `scalar_mul_daa_limbs8` computes: on the toy
curve with point (0, 4, 1) and scalar bytes [2] the two return
different projective representatives. -/
theorem scale_msb_claim_counterexample :
    ProjPoint.scale toyP [2] toyCurve
      ≠ ProjPoint.scalar_mul_msb_claimed toyP [2] toyCurve := by
  decide

/-- C1 (amended): `Point::scale` / `scalar_mul_daa_limbs8` is the
double-and-add loop that starts the accumulator at infinity, processes
the scalar bytes last byte (least significant) first and within each
byte bits from bit 0 up to bit 7, and at each bit doubles the running
copy of the input point, adding it to the accumulator via
`add_or_double` exactly when the bit is 1. -/
theorem scale_is_lsb_first_double_and_add {F : Type} [Field F] [DecidableEq F]
    (self : ProjPoint F) (n : List Nat) (curve : WCurve F) :
    ProjPoint.scale self n curve
      = ProjPoint.daa_lsb_bits self (ProjPoint.bits_lsb_first n) curve := by
  unfold ProjPoint.scale ProjPoint.scalar_mul_daa_limbs8 ProjPoint.daa_lsb_bits
    ProjPoint.bits_lsb_first
  rw [ProjPoint.foldl_bytes_eq_foldl_bits]

/-- C2 (counterexample): calling the generic projective
`add_different` of `curve/projective.rs` with two equal points does
not panic: on the toy curve it returns the Algorithm 1 output
normally, so the claimed `assert!(self != other)` guard is absent from
that path. -/
theorem add_different_equal_inputs_counterexample :
    ProjPoint.add_different_result toyP toyP toyCurve ≠ none := by
  decide

/-- C2 (amended): the `assert!(self != other)` guard exists in the
legacy macro implementations of `add_different` (`curve/macros.rs`,
`curve/bigint/curve_macros.rs`), where a call with two equal points
panics and returns no value; the generic `add_different` of
`curve/projective.rs` contains no assertion and returns the complete
addition formula output even for two equal points. -/
theorem add_different_equal_inputs_no_assert {F : Type} [Field F] [DecidableEq F]
    (p : ProjPoint F) (curve : WCurve F) :
    ProjPoint.legacy_add_different p p curve = none ∧
    (ProjPoint.add_different_result p p curve).isSome = true := by
  constructor
  · unfold ProjPoint.legacy_add_different
    simp
  · rfl

namespace ProjPoint

variable {F : Type} [Field F] [DecidableEq F]

/-- C4: adding the point at infinity with `add_or_double` is the
identity up to projective equivalence, on both sides, for every
on-curve point including infinity itself. -/
theorem add_infinity_identity (curve : WCurve F) (p : ProjPoint F)
    (hcurve : onCurve curve p) :
    is_equivalent (add_or_double p infinity curve) p = true ∧
    is_equivalent (add_or_double infinity p curve) p = true := by
  constructor
  · unfold add_or_double
    split
    · rename_i h
      unfold is_equivalent infinity at h
      rw [Bool.and_eq_true, decide_eq_true_eq, decide_eq_true_eq] at h
      have hz : p.z = 0 := by
        have := h.2
        simpa using this.symm
      unfold is_equivalent double
      rw [Bool.and_eq_true, decide_eq_true_eq, decide_eq_true_eq]
      constructor <;> simp [hz] <;> ring
    · unfold is_equivalent add_different infinity
      rw [Bool.and_eq_true, decide_eq_true_eq, decide_eq_true_eq]
      constructor <;> simp <;> ring
  · unfold add_or_double
    split
    · rename_i h
      unfold is_equivalent infinity at h
      rw [Bool.and_eq_true, decide_eq_true_eq, decide_eq_true_eq] at h
      have hz : p.z = 0 := by
        have := h.2
        simpa using this
      unfold is_equivalent double infinity
      rw [Bool.and_eq_true, decide_eq_true_eq, decide_eq_true_eq]
      constructor <;> simp [hz] <;> ring
    · unfold is_equivalent add_different infinity
      rw [Bool.and_eq_true, decide_eq_true_eq, decide_eq_true_eq]
      constructor <;> simp <;> ring

/-- C5: for a finite on-curve point with nonzero Y over a field of
characteristic other than 2, adding its negation with `add_or_double`
yields the point at infinity: the result has Z = 0 and is equivalent
to (0 : 1 : 0). -/
theorem add_neg_is_infinity (curve : WCurve F) (p : ProjPoint F)
    (hcurve : onCurve curve p) (hz : p.z ≠ 0) (hy : p.y ≠ 0) (h2 : (2 : F) ≠ 0) :
    (add_or_double p (pneg p) curve).z = 0 ∧
    is_equivalent (add_or_double p (pneg p) curve) infinity = true := by
  have hne : is_equivalent p (pneg p) = false := by
    unfold is_equivalent pneg
    rw [Bool.and_eq_false_iff]
    right
    rw [decide_eq_false_iff_not]
    intro h
    simp only at h
    have h2yz : (2 : F) * (p.y * p.z) = 0 := by linear_combination h
    rcases mul_eq_zero.mp h2yz with h' | h'
    · exact h2 h'
    · rcases mul_eq_zero.mp h' with h'' | h''
      · exact hy h''
      · exact hz h''
  have hzz : (add_or_double p (pneg p) curve).z = 0 := by
    unfold add_or_double
    rw [hne]
    simp only [Bool.false_eq_true, if_false]
    unfold add_different pneg
    simp only
    ring
  refine ⟨hzz, ?_⟩
  unfold is_equivalent infinity
  rw [Bool.and_eq_true, decide_eq_true_eq, decide_eq_true_eq]
  constructor
  · simp [hzz]
  · simp [hzz]

end ProjPoint

/-- Witness for C4 at the concrete on-curve toy point (0, 4, 1). -/
theorem add_infinity_identity_witness :
    ProjPoint.onCurve toyCurve toyP ∧
    (ProjPoint.is_equivalent (ProjPoint.add_or_double toyP ProjPoint.infinity toyCurve) toyP = true ∧
     ProjPoint.is_equivalent (ProjPoint.add_or_double ProjPoint.infinity toyP toyCurve) toyP = true) :=
  ⟨by decide, ProjPoint.add_infinity_identity toyCurve toyP (by decide)⟩

/-! Correctness development for the limb comparison and the byte codec. -/

theorem limb_subborrow_snd (c x y : Nat) :
    (limb_subborrow c x y).2 = if x < y + c then 1 else 0 := by
  unfold limb_subborrow
  simp only
  split
  · rename_i h
    rw [if_pos (by omega)]
    rfl
  · rename_i h
    rw [if_neg (by omega)]
    rfl

theorem subborrow_chain (a b : List Nat) (c : Nat) (hc : c ≤ 1)
    (ha : ∀ x ∈ a, x < 2 ^ 64) (hb : ∀ x ∈ b, x < 2 ^ 64)
    (hlen : a.length = b.length) :
    (a.zip b).foldl (fun borrow xy => (limb_subborrow borrow xy.1 xy.2).2) c
      = if leNat a < leNat b + c then 1 else 0 := by
  induction a generalizing b c with
  | nil =>
      cases b with
      | nil =>
          simp [leNat]
          split <;> omega
      | cons y b => simp at hlen
  | cons x a ih =>
      cases b with
      | nil => simp at hlen
      | cons y b =>
          simp only [List.zip_cons_cons, List.foldl_cons]
          rw [limb_subborrow_snd]
          have hx : x < 2 ^ 64 := ha x (by simp)
          have hy : y < 2 ^ 64 := hb y (by simp)
          have ha' : ∀ t ∈ a, t < 2 ^ 64 := fun t ht => ha t (by simp [ht])
          have hb' : ∀ t ∈ b, t < 2 ^ 64 := fun t ht => hb t (by simp [ht])
          have hlen' : a.length = b.length := by simpa using hlen
          have hstep : (if x < y + c then 1 else 0) ≤ 1 := by split <;> omega
          rw [ih b (if x < y + c then 1 else 0) hstep ha' hb' hlen']
          have hA : leNat (x :: a) = x + 2 ^ 64 * leNat a := rfl
          have hB : leNat (y :: b) = y + 2 ^ 64 * leNat b := rfl
          rw [hA, hB]
          split
          · rename_i h1
            split
            · rename_i h2
              rw [if_pos (by omega)]
            · rename_i h2
              rw [if_neg (by omega)]
          · rename_i h1
            split
            · rename_i h2
              rw [if_pos (by omega)]
            · rename_i h2
              rw [if_neg (by omega)]

theorem limbsle_lt_correct (a b : List Nat)
    (ha : ∀ x ∈ a, x < 2 ^ 64) (hb : ∀ x ∈ b, x < 2 ^ 64)
    (hlen : a.length = b.length) :
    limbsle_lt a b = true ↔ leNat a < leNat b := by
  unfold limbsle_lt
  simp only
  rw [subborrow_chain a b 0 (by omega) ha hb hlen]
  split
  · rename_i h
    simp
    omega
  · rename_i h
    simp
    omega

theorem beNat_append_one (l : List Nat) (b : Nat) :
    beNat (l ++ [b]) = beNat l * 256 + b := by
  unfold beNat
  rw [List.foldl_append]
  rfl

theorem beNat_toBytesBE (w v : Nat) : beNat (toBytesBE w v) = v % 256 ^ w := by
  induction w generalizing v with
  | zero => simp [toBytesBE, beNat, Nat.mod_one]
  | succ w ih =>
      unfold toBytesBE
      rw [beNat_append_one, ih]
      rw [show (256 : Nat) ^ (w + 1) = 256 * 256 ^ w by rw [pow_succ]; ring]
      rw [@Nat.mod_mul 256 (256 ^ w) v]
      ring

theorem toBytesBE_length (w v : Nat) : (toBytesBE w v).length = w := by
  induction w generalizing v with
  | zero => rfl
  | succ w ih => simp [toBytesBE, ih]

theorem toBytesBE_bytes_lt (w v : Nat) : ∀ x ∈ toBytesBE w v, x < 256 := by
  induction w generalizing v with
  | zero => simp [toBytesBE]
  | succ w ih =>
      intro x hx
      unfold toBytesBE at hx
      rw [List.mem_append] at hx
      rcases hx with h | h
      · exact ih _ x h
      · simp at h
        omega

theorem beNat_lt (bytes : List Nat) (hb : ∀ x ∈ bytes, x < 256) :
    beNat bytes < 256 ^ bytes.length := by
  induction bytes using List.reverseRecOn with
  | nil => simp [beNat]
  | append_singleton l b ih =>
      rw [beNat_append_one]
      have hb' : ∀ x ∈ l, x < 256 := fun x hx => hb x (by simp [hx])
      have := ih hb'
      have hblt : b < 256 := hb b (by simp)
      simp only [List.length_append, List.length_singleton, pow_succ]
      calc beNat l * 256 + b < (beNat l + 1) * 256 := by omega
        _ ≤ 256 ^ l.length * 256 := by
            have : beNat l + 1 ≤ 256 ^ l.length := this
            exact Nat.mul_le_mul_right 256 this
        _ = 256 ^ (l.length + 1) := by rw [pow_succ]

theorem leNat_natToLimbsLE (k v : Nat) :
    leNat (natToLimbsLE k v) = v % (2 ^ 64) ^ k := by
  induction k generalizing v with
  | zero => simp [natToLimbsLE, leNat, Nat.mod_one]
  | succ k ih =>
      unfold natToLimbsLE
      have hcons : leNat (v % 2 ^ 64 :: natToLimbsLE k (v / 2 ^ 64))
          = v % 2 ^ 64 + 2 ^ 64 * leNat (natToLimbsLE k (v / 2 ^ 64)) := rfl
      rw [hcons, ih]
      rw [show ((2 : Nat) ^ 64) ^ (k + 1) = 2 ^ 64 * (2 ^ 64) ^ k by rw [pow_succ]; ring]
      rw [@Nat.mod_mul (2 ^ 64) ((2 ^ 64) ^ k) v]

theorem natToLimbsLE_bounds (k v : Nat) : ∀ x ∈ natToLimbsLE k v, x < 2 ^ 64 := by
  induction k generalizing v with
  | zero => simp [natToLimbsLE]
  | succ k ih =>
      intro x hx
      unfold natToLimbsLE at hx
      rw [List.mem_cons] at hx
      rcases hx with h | h
      · subst h
        exact Nat.mod_lt _ (by norm_num)
      · exact ih _ x h

theorem natToLimbsLE_length (k v : Nat) : (natToLimbsLE k v).length = k := by
  induction k generalizing v with
  | zero => rfl
  | succ k ih => simp [natToLimbsLE, ih]

theorem from_bytes_none_iff_aux (k p : Nat) (bytes : List Nat)
    (hb : ∀ x ∈ bytes, x < 256) (hpk : p < (2 ^ 64) ^ k)
    (hwk : 256 ^ bytes.length ≤ (2 ^ 64) ^ k) :
    from_bytes k p bytes = none ↔ p ≤ beNat bytes := by
  unfold from_bytes
  simp only
  have hlt := beNat_lt bytes hb
  have hcond : limbsle_lt (natToLimbsLE k (beNat bytes)) (natToLimbsLE k p) = true
      ↔ beNat bytes < p := by
    rw [limbsle_lt_correct _ _ (natToLimbsLE_bounds k (beNat bytes))
      (natToLimbsLE_bounds k p) (by rw [natToLimbsLE_length, natToLimbsLE_length])]
    rw [leNat_natToLimbsLE, leNat_natToLimbsLE]
    rw [Nat.mod_eq_of_lt (by omega), Nat.mod_eq_of_lt hpk]
  split
  · rename_i h
    have hvp := hcond.mp h
    constructor
    · intro hc
      exact absurd hc (by simp)
    · intro hc
      omega
  · rename_i h
    have hvp : ¬beNat bytes < p := fun hc => h (hcond.mpr hc)
    constructor
    · intro _
      omega
    · intro _
      rfl

/-- C6: for every canonical value x below the prime, serializing with
`to_bytes` and parsing back with `from_bytes` returns `Some x`, for any
limb count and byte width compatible with the prime (`k` limbs, `w`
bytes). -/
theorem from_bytes_to_bytes_roundtrip (k p w x : Nat) (hx : x < p)
    (hpw : p ≤ 256 ^ w) (hpk : p < (2 ^ 64) ^ k) (hwk : 256 ^ w ≤ (2 ^ 64) ^ k) :
    from_bytes k p (to_bytes w x) = some x := by
  unfold from_bytes to_bytes
  simp only
  have hval : beNat (toBytesBE w x) = x := by
    rw [beNat_toBytesBE]
    exact Nat.mod_eq_of_lt (by omega)
  rw [hval]
  rw [if_pos]
  rw [limbsle_lt_correct _ _ (natToLimbsLE_bounds k x) (natToLimbsLE_bounds k p)
    (by rw [natToLimbsLE_length, natToLimbsLE_length])]
  rw [leNat_natToLimbsLE, leNat_natToLimbsLE]
  rw [Nat.mod_eq_of_lt (by omega), Nat.mod_eq_of_lt hpk]
  exact hx

/-- Witness for C6: the value 5 round-trips through the 24-byte codec
of the p192k1 field. -/
theorem from_bytes_to_bytes_roundtrip_witness :
    (5 < p192k1_P ∧ p192k1_P ≤ 256 ^ 24 ∧ p192k1_P < (2 ^ 64) ^ 3 ∧
      (256 : Nat) ^ 24 ≤ (2 ^ 64) ^ 3) ∧
    from_bytes 3 p192k1_P (to_bytes 24 5) = some 5 :=
  ⟨by decide, from_bytes_to_bytes_roundtrip 3 p192k1_P 24 5 (by decide) (by decide)
    (by decide) (by decide)⟩

/-- C7: `from_bytes` returns `None` exactly when the big-endian value
of the byte array is greater than or equal to the field prime.  In
particular an all-0xFF array is rejected whenever the prime is below
the all-ones value of the byte width. -/
theorem from_bytes_rejects_iff_ge_p (k p : Nat) (bytes : List Nat)
    (hb : ∀ x ∈ bytes, x < 256) (hpk : p < (2 ^ 64) ^ k)
    (hwk : 256 ^ bytes.length ≤ (2 ^ 64) ^ k) :
    from_bytes k p bytes = none ↔ p ≤ beNat bytes :=
  from_bytes_none_iff_aux k p bytes hb hpk hwk

/-- Witness for C7: the all-0xFF 24-byte array is rejected by the
p192k1 `from_bytes` because its value is at least the prime. -/
theorem from_bytes_rejects_iff_ge_p_witness :
    (p192k1_P ≤ beNat (List.replicate 24 255)) ∧
    from_bytes 3 p192k1_P (List.replicate 24 255) = none :=
  ⟨by decide,
   (from_bytes_rejects_iff_ge_p 3 p192k1_P (List.replicate 24 255) (by decide)
     (by decide) (by decide)).mpr (by decide)⟩

/-- C10: `from_bytes_unchecked` performs no range validation: it
returns the parsed value for every fixed-width byte array, including
arrays whose big-endian value reaches or exceeds the prime, which
`from_bytes` rejects with `None`. -/
theorem from_bytes_unchecked_no_validation (k p : Nat) (bytes : List Nat)
    (hb : ∀ x ∈ bytes, x < 256) (hpk : p < (2 ^ 64) ^ k)
    (hwk : 256 ^ bytes.length ≤ (2 ^ 64) ^ k) :
    from_bytes_unchecked bytes = beNat bytes ∧
    (p ≤ beNat bytes → from_bytes k p bytes = none) := by
  constructor
  · rfl
  · intro h
    exact (from_bytes_none_iff_aux k p bytes hb hpk hwk).mpr h

/-- Witness for C10: the all-0xFF 24-byte array is accepted by
`from_bytes_unchecked` with its out-of-range value while `from_bytes`
rejects it. -/
theorem from_bytes_unchecked_no_validation_witness :
    (p192k1_P ≤ beNat (List.replicate 24 255)) ∧
    (from_bytes_unchecked (List.replicate 24 255) = beNat (List.replicate 24 255) ∧
     (p192k1_P ≤ beNat (List.replicate 24 255) →
       from_bytes 3 p192k1_P (List.replicate 24 255) = none)) :=
  ⟨by decide,
   from_bytes_unchecked_no_validation 3 p192k1_P (List.replicate 24 255) (by decide)
     (by decide) (by decide)⟩

/-- Witness for C5 at the concrete on-curve toy point (0, 4, 1). -/
theorem add_neg_is_infinity_witness :
    (ProjPoint.onCurve toyCurve toyP ∧ toyP.z ≠ 0 ∧ toyP.y ≠ 0 ∧ (2 : ZMod 13) ≠ 0) ∧
    ((ProjPoint.add_or_double toyP (ProjPoint.pneg toyP) toyCurve).z = 0 ∧
     ProjPoint.is_equivalent (ProjPoint.add_or_double toyP (ProjPoint.pneg toyP) toyCurve)
       ProjPoint.infinity = true) :=
  ⟨by decide,
   ProjPoint.add_neg_is_infinity toyCurve toyP (by decide) (by decide) (by decide) (by decide)⟩

/-! Modular exponentiation correctness and primality certificates. -/

theorem powModAux_correct (fuel : Nat) : ∀ b e m, 1 < m → e < 2 ^ fuel →
    powModAux fuel b e m = b ^ e % m := by
  induction fuel with
  | zero =>
      intro b e m hm he
      have : e = 0 := by omega
      subst this
      simp [powModAux]
  | succ fuel ih =>
      intro b e m hm he
      unfold powModAux
      split
      · rename_i h
        subst h
        simp
      · rename_i h
        simp only
        have hdiv : e / 2 < 2 ^ fuel := by
          rw [Nat.div_lt_iff_lt_mul (by omega : 0 < 2)]
          calc e < 2 ^ (fuel + 1) := he
            _ = 2 ^ fuel * 2 := by rw [pow_succ]
        rw [ih (b * b % m) (e / 2) m hm hdiv]
        rw [← Nat.pow_mod]
        have hsplit : b ^ e = (b * b) ^ (e / 2) * b ^ (e % 2) := by
          conv_lhs => rw [← Nat.div_add_mod e 2]
          rw [pow_add, Nat.mul_comm 2 (e / 2), pow_mul]
          ring
        split
        · rename_i hodd
          rw [Nat.mod_mul_mod, hsplit, hodd, pow_one]
        · rename_i hodd
          have : e % 2 = 0 := by omega
          rw [hsplit, this, pow_zero, mul_one]

theorem cast_powModAux (p : Nat) (hp : 1 < p) (a e fuel : Nat) (he : e < 2 ^ fuel) :
    ((a : ZMod p)) ^ e = ((powModAux fuel a e p : Nat) : ZMod p) := by
  rw [powModAux_correct fuel a e p hp he]
  rw [ZMod.natCast_mod, Nat.cast_pow]

theorem pow_eq_one_via (p a fuel : Nat) (hp : 1 < p) (he : p - 1 < 2 ^ fuel)
    (h : powModAux fuel a (p - 1) p = 1) :
    ((a : Nat) : ZMod p) ^ (p - 1) = 1 := by
  rw [cast_powModAux p hp a (p - 1) fuel he, h, Nat.cast_one]

theorem pow_ne_one_via (p a e fuel : Nat) (hp : 1 < p) (he : e < 2 ^ fuel)
    (h : powModAux fuel a e p ≠ 1) :
    ((a : Nat) : ZMod p) ^ e ≠ 1 := by
  rw [cast_powModAux p hp a e fuel he]
  intro hc
  apply h
  have hlt : powModAux fuel a e p < p := by
    rw [powModAux_correct fuel a e p hp he]
    exact Nat.mod_lt _ (by omega)
  haveI : NeZero p := ⟨by omega⟩
  haveI : Fact (1 < p) := ⟨hp⟩
  have hv := congrArg ZMod.val hc
  rw [ZMod.val_cast_of_lt hlt, ZMod.val_one] at hv
  exact hv

theorem prime_eq_of_dvd_pow (q r e : Nat) (hq : Nat.Prime q) (hr : Nat.Prime r)
    (h : q ∣ r ^ e) : q = r :=
  (Nat.prime_dvd_prime_iff_eq hq hr).mp (hq.dvd_of_dvd_pow h)

theorem prime_3651619 : Nat.Prime 3651619 := by
  apply lucas_primality 3651619 ((2 : Nat) : ZMod 3651619)
  · exact pow_eq_one_via 3651619 2 256 (by norm_num) (by decide) (by decide)
  · intro q hq hdvd
    have hfact : 3651619 - 1 = 2 ^ 1 * (3 ^ 1 * (23 ^ 1 * (47 ^ 1 * (563 ^ 1)))) := by decide
    rw [hfact] at hdvd
    rcases (Nat.Prime.dvd_mul hq).mp hdvd with h | h
    · have he := prime_eq_of_dvd_pow q 2 1 hq (by norm_num) h
      subst he
      exact pow_ne_one_via 3651619 2 (3651618 / 2) 256 (by norm_num) (by decide) (by decide)
    rcases (Nat.Prime.dvd_mul hq).mp h with h | h
    · have he := prime_eq_of_dvd_pow q 3 1 hq (by norm_num) h
      subst he
      exact pow_ne_one_via 3651619 2 (3651618 / 3) 256 (by norm_num) (by decide) (by decide)
    rcases (Nat.Prime.dvd_mul hq).mp h with h | h
    · have he := prime_eq_of_dvd_pow q 23 1 hq (by norm_num) h
      subst he
      exact pow_ne_one_via 3651619 2 (3651618 / 23) 256 (by norm_num) (by decide) (by decide)
    rcases (Nat.Prime.dvd_mul hq).mp h with h | h
    · have he := prime_eq_of_dvd_pow q 47 1 hq (by norm_num) h
      subst he
      exact pow_ne_one_via 3651619 2 (3651618 / 47) 256 (by norm_num) (by decide) (by decide)
    · have he := prime_eq_of_dvd_pow q 563 1 hq (by norm_num) h
      subst he
      exact pow_ne_one_via 3651619 2 (3651618 / 563) 256 (by norm_num) (by decide) (by decide)

theorem prime_14606477 : Nat.Prime 14606477 := by
  apply lucas_primality 14606477 ((2 : Nat) : ZMod 14606477)
  · exact pow_eq_one_via 14606477 2 256 (by norm_num) (by decide) (by decide)
  · intro q hq hdvd
    have hfact : 14606477 - 1 = 2 ^ 2 * (3651619 ^ 1) := by decide
    rw [hfact] at hdvd
    rcases (Nat.Prime.dvd_mul hq).mp hdvd with h | h
    · have he := prime_eq_of_dvd_pow q 2 2 hq (by norm_num) h
      subst he
      exact pow_ne_one_via 14606477 2 (14606476 / 2) 256 (by norm_num) (by decide) (by decide)
    · have he := prime_eq_of_dvd_pow q 3651619 1 hq prime_3651619 h
      subst he
      exact pow_ne_one_via 14606477 2 (14606476 / 3651619) 256 (by norm_num) (by decide) (by decide)

theorem prime_2307823367 : Nat.Prime 2307823367 := by
  apply lucas_primality 2307823367 ((5 : Nat) : ZMod 2307823367)
  · exact pow_eq_one_via 2307823367 5 256 (by norm_num) (by decide) (by decide)
  · intro q hq hdvd
    have hfact : 2307823367 - 1 = 2 ^ 1 * (79 ^ 1 * (14606477 ^ 1)) := by decide
    rw [hfact] at hdvd
    rcases (Nat.Prime.dvd_mul hq).mp hdvd with h | h
    · have he := prime_eq_of_dvd_pow q 2 1 hq (by norm_num) h
      subst he
      exact pow_ne_one_via 2307823367 5 (2307823366 / 2) 256 (by norm_num) (by decide) (by decide)
    rcases (Nat.Prime.dvd_mul hq).mp h with h | h
    · have he := prime_eq_of_dvd_pow q 79 1 hq (by norm_num) h
      subst he
      exact pow_ne_one_via 2307823367 5 (2307823366 / 79) 256 (by norm_num) (by decide) (by decide)
    · have he := prime_eq_of_dvd_pow q 14606477 1 hq prime_14606477 h
      subst he
      exact pow_ne_one_via 2307823367 5 (2307823366 / 14606477) 256 (by norm_num) (by decide) (by decide)

theorem prime_1295233555201613 : Nat.Prime 1295233555201613 := by
  apply lucas_primality 1295233555201613 ((2 : Nat) : ZMod 1295233555201613)
  · exact pow_eq_one_via 1295233555201613 2 256 (by norm_num) (by decide) (by decide)
  · intro q hq hdvd
    have hfact : 1295233555201613 - 1 = 2 ^ 2 * (13 ^ 1 * (43 ^ 1 * (251 ^ 1 * (2307823367 ^ 1)))) := by decide
    rw [hfact] at hdvd
    rcases (Nat.Prime.dvd_mul hq).mp hdvd with h | h
    · have he := prime_eq_of_dvd_pow q 2 2 hq (by norm_num) h
      subst he
      exact pow_ne_one_via 1295233555201613 2 (1295233555201612 / 2) 256 (by norm_num) (by decide) (by decide)
    rcases (Nat.Prime.dvd_mul hq).mp h with h | h
    · have he := prime_eq_of_dvd_pow q 13 1 hq (by norm_num) h
      subst he
      exact pow_ne_one_via 1295233555201613 2 (1295233555201612 / 13) 256 (by norm_num) (by decide) (by decide)
    rcases (Nat.Prime.dvd_mul hq).mp h with h | h
    · have he := prime_eq_of_dvd_pow q 43 1 hq (by norm_num) h
      subst he
      exact pow_ne_one_via 1295233555201613 2 (1295233555201612 / 43) 256 (by norm_num) (by decide) (by decide)
    rcases (Nat.Prime.dvd_mul hq).mp h with h | h
    · have he := prime_eq_of_dvd_pow q 251 1 hq (by norm_num) h
      subst he
      exact pow_ne_one_via 1295233555201613 2 (1295233555201612 / 251) 256 (by norm_num) (by decide) (by decide)
    · have he := prime_eq_of_dvd_pow q 2307823367 1 hq prime_2307823367 h
      subst he
      exact pow_ne_one_via 1295233555201613 2 (1295233555201612 / 2307823367) 256 (by norm_num) (by decide) (by decide)

theorem prime_393721 : Nat.Prime 393721 := by
  apply lucas_primality 393721 ((7 : Nat) : ZMod 393721)
  · exact pow_eq_one_via 393721 7 256 (by norm_num) (by decide) (by decide)
  · intro q hq hdvd
    have hfact : 393721 - 1 = 2 ^ 3 * (3 ^ 1 * (5 ^ 1 * (17 ^ 1 * (193 ^ 1)))) := by decide
    rw [hfact] at hdvd
    rcases (Nat.Prime.dvd_mul hq).mp hdvd with h | h
    · have he := prime_eq_of_dvd_pow q 2 3 hq (by norm_num) h
      subst he
      exact pow_ne_one_via 393721 7 (393720 / 2) 256 (by norm_num) (by decide) (by decide)
    rcases (Nat.Prime.dvd_mul hq).mp h with h | h
    · have he := prime_eq_of_dvd_pow q 3 1 hq (by norm_num) h
      subst he
      exact pow_ne_one_via 393721 7 (393720 / 3) 256 (by norm_num) (by decide) (by decide)
    rcases (Nat.Prime.dvd_mul hq).mp h with h | h
    · have he := prime_eq_of_dvd_pow q 5 1 hq (by norm_num) h
      subst he
      exact pow_ne_one_via 393721 7 (393720 / 5) 256 (by norm_num) (by decide) (by decide)
    rcases (Nat.Prime.dvd_mul hq).mp h with h | h
    · have he := prime_eq_of_dvd_pow q 17 1 hq (by norm_num) h
      subst he
      exact pow_ne_one_via 393721 7 (393720 / 17) 256 (by norm_num) (by decide) (by decide)
    · have he := prime_eq_of_dvd_pow q 193 1 hq (by norm_num) h
      subst he
      exact pow_ne_one_via 393721 7 (393720 / 193) 256 (by norm_num) (by decide) (by decide)

theorem prime_11113956389 : Nat.Prime 11113956389 := by
  apply lucas_primality 11113956389 ((2 : Nat) : ZMod 11113956389)
  · exact pow_eq_one_via 11113956389 2 256 (by norm_num) (by decide) (by decide)
  · intro q hq hdvd
    have hfact : 11113956389 - 1 = 2 ^ 2 * (7057 ^ 1 * (393721 ^ 1)) := by decide
    rw [hfact] at hdvd
    rcases (Nat.Prime.dvd_mul hq).mp hdvd with h | h
    · have he := prime_eq_of_dvd_pow q 2 2 hq (by norm_num) h
      subst he
      exact pow_ne_one_via 11113956389 2 (11113956388 / 2) 256 (by norm_num) (by decide) (by decide)
    rcases (Nat.Prime.dvd_mul hq).mp h with h | h
    · have he := prime_eq_of_dvd_pow q 7057 1 hq (by norm_num) h
      subst he
      exact pow_ne_one_via 11113956389 2 (11113956388 / 7057) 256 (by norm_num) (by decide) (by decide)
    · have he := prime_eq_of_dvd_pow q 393721 1 hq prime_393721 h
      subst he
      exact pow_ne_one_via 11113956389 2 (11113956388 / 393721) 256 (by norm_num) (by decide) (by decide)

theorem prime_16189543961 : Nat.Prime 16189543961 := by
  apply lucas_primality 16189543961 ((6 : Nat) : ZMod 16189543961)
  · exact pow_eq_one_via 16189543961 6 256 (by norm_num) (by decide) (by decide)
  · intro q hq hdvd
    have hfact : 16189543961 - 1 = 2 ^ 3 * (5 ^ 1 * (61 ^ 1 * (2473 ^ 1 * (2683 ^ 1)))) := by decide
    rw [hfact] at hdvd
    rcases (Nat.Prime.dvd_mul hq).mp hdvd with h | h
    · have he := prime_eq_of_dvd_pow q 2 3 hq (by norm_num) h
      subst he
      exact pow_ne_one_via 16189543961 6 (16189543960 / 2) 256 (by norm_num) (by decide) (by decide)
    rcases (Nat.Prime.dvd_mul hq).mp h with h | h
    · have he := prime_eq_of_dvd_pow q 5 1 hq (by norm_num) h
      subst he
      exact pow_ne_one_via 16189543961 6 (16189543960 / 5) 256 (by norm_num) (by decide) (by decide)
    rcases (Nat.Prime.dvd_mul hq).mp h with h | h
    · have he := prime_eq_of_dvd_pow q 61 1 hq (by norm_num) h
      subst he
      exact pow_ne_one_via 16189543961 6 (16189543960 / 61) 256 (by norm_num) (by decide) (by decide)
    rcases (Nat.Prime.dvd_mul hq).mp h with h | h
    · have he := prime_eq_of_dvd_pow q 2473 1 hq (by norm_num) h
      subst he
      exact pow_ne_one_via 16189543961 6 (16189543960 / 2473) 256 (by norm_num) (by decide) (by decide)
    · have he := prime_eq_of_dvd_pow q 2683 1 hq (by norm_num) h
      subst he
      exact pow_ne_one_via 16189543961 6 (16189543960 / 2683) 256 (by norm_num) (by decide) (by decide)

theorem prime_706151 : Nat.Prime 706151 := by
  apply lucas_primality 706151 ((17 : Nat) : ZMod 706151)
  · exact pow_eq_one_via 706151 17 256 (by norm_num) (by decide) (by decide)
  · intro q hq hdvd
    have hfact : 706151 - 1 = 2 ^ 1 * (5 ^ 2 * (29 ^ 1 * (487 ^ 1))) := by decide
    rw [hfact] at hdvd
    rcases (Nat.Prime.dvd_mul hq).mp hdvd with h | h
    · have he := prime_eq_of_dvd_pow q 2 1 hq (by norm_num) h
      subst he
      exact pow_ne_one_via 706151 17 (706150 / 2) 256 (by norm_num) (by decide) (by decide)
    rcases (Nat.Prime.dvd_mul hq).mp h with h | h
    · have he := prime_eq_of_dvd_pow q 5 2 hq (by norm_num) h
      subst he
      exact pow_ne_one_via 706151 17 (706150 / 5) 256 (by norm_num) (by decide) (by decide)
    rcases (Nat.Prime.dvd_mul hq).mp h with h | h
    · have he := prime_eq_of_dvd_pow q 29 1 hq (by norm_num) h
      subst he
      exact pow_ne_one_via 706151 17 (706150 / 29) 256 (by norm_num) (by decide) (by decide)
    · have he := prime_eq_of_dvd_pow q 487 1 hq (by norm_num) h
      subst he
      exact pow_ne_one_via 706151 17 (706150 / 487) 256 (by norm_num) (by decide) (by decide)

theorem prime_8473813 : Nat.Prime 8473813 := by
  apply lucas_primality 8473813 ((2 : Nat) : ZMod 8473813)
  · exact pow_eq_one_via 8473813 2 256 (by norm_num) (by decide) (by decide)
  · intro q hq hdvd
    have hfact : 8473813 - 1 = 2 ^ 2 * (3 ^ 1 * (706151 ^ 1)) := by decide
    rw [hfact] at hdvd
    rcases (Nat.Prime.dvd_mul hq).mp hdvd with h | h
    · have he := prime_eq_of_dvd_pow q 2 2 hq (by norm_num) h
      subst he
      exact pow_ne_one_via 8473813 2 (8473812 / 2) 256 (by norm_num) (by decide) (by decide)
    rcases (Nat.Prime.dvd_mul hq).mp h with h | h
    · have he := prime_eq_of_dvd_pow q 3 1 hq (by norm_num) h
      subst he
      exact pow_ne_one_via 8473813 2 (8473812 / 3) 256 (by norm_num) (by decide) (by decide)
    · have he := prime_eq_of_dvd_pow q 706151 1 hq prime_706151 h
      subst he
      exact pow_ne_one_via 8473813 2 (8473812 / 706151) 256 (by norm_num) (by decide) (by decide)

theorem prime_138580737803 : Nat.Prime 138580737803 := by
  apply lucas_primality 138580737803 ((2 : Nat) : ZMod 138580737803)
  · exact pow_eq_one_via 138580737803 2 256 (by norm_num) (by decide) (by decide)
  · intro q hq hdvd
    have hfact : 138580737803 - 1 = 2 ^ 1 * (13 ^ 1 * (17 ^ 1 * (37 ^ 1 * (8473813 ^ 1)))) := by decide
    rw [hfact] at hdvd
    rcases (Nat.Prime.dvd_mul hq).mp hdvd with h | h
    · have he := prime_eq_of_dvd_pow q 2 1 hq (by norm_num) h
      subst he
      exact pow_ne_one_via 138580737803 2 (138580737802 / 2) 256 (by norm_num) (by decide) (by decide)
    rcases (Nat.Prime.dvd_mul hq).mp h with h | h
    · have he := prime_eq_of_dvd_pow q 13 1 hq (by norm_num) h
      subst he
      exact pow_ne_one_via 138580737803 2 (138580737802 / 13) 256 (by norm_num) (by decide) (by decide)
    rcases (Nat.Prime.dvd_mul hq).mp h with h | h
    · have he := prime_eq_of_dvd_pow q 17 1 hq (by norm_num) h
      subst he
      exact pow_ne_one_via 138580737803 2 (138580737802 / 17) 256 (by norm_num) (by decide) (by decide)
    rcases (Nat.Prime.dvd_mul hq).mp h with h | h
    · have he := prime_eq_of_dvd_pow q 37 1 hq (by norm_num) h
      subst he
      exact pow_ne_one_via 138580737803 2 (138580737802 / 37) 256 (by norm_num) (by decide) (by decide)
    · have he := prime_eq_of_dvd_pow q 8473813 1 hq prime_8473813 h
      subst he
      exact pow_ne_one_via 138580737803 2 (138580737802 / 8473813) 256 (by norm_num) (by decide) (by decide)

theorem prime_10489845818524887021689201254173392444641 : Nat.Prime 10489845818524887021689201254173392444641 := by
  apply lucas_primality 10489845818524887021689201254173392444641 ((13 : Nat) : ZMod 10489845818524887021689201254173392444641)
  · exact pow_eq_one_via 10489845818524887021689201254173392444641 13 256 (by norm_num) (by decide) (by decide)
  · intro q hq hdvd
    have hfact : 10489845818524887021689201254173392444641 - 1 = 2 ^ 5 * (3 ^ 1 * (5 ^ 1 * (281 ^ 1 * (3119 ^ 1 * (11113956389 ^ 1 * (16189543961 ^ 1 * (138580737803 ^ 1))))))) := by decide
    rw [hfact] at hdvd
    rcases (Nat.Prime.dvd_mul hq).mp hdvd with h | h
    · have he := prime_eq_of_dvd_pow q 2 5 hq (by norm_num) h
      subst he
      exact pow_ne_one_via 10489845818524887021689201254173392444641 13 (10489845818524887021689201254173392444640 / 2) 256 (by norm_num) (by decide) (by decide)
    rcases (Nat.Prime.dvd_mul hq).mp h with h | h
    · have he := prime_eq_of_dvd_pow q 3 1 hq (by norm_num) h
      subst he
      exact pow_ne_one_via 10489845818524887021689201254173392444641 13 (10489845818524887021689201254173392444640 / 3) 256 (by norm_num) (by decide) (by decide)
    rcases (Nat.Prime.dvd_mul hq).mp h with h | h
    · have he := prime_eq_of_dvd_pow q 5 1 hq (by norm_num) h
      subst he
      exact pow_ne_one_via 10489845818524887021689201254173392444641 13 (10489845818524887021689201254173392444640 / 5) 256 (by norm_num) (by decide) (by decide)
    rcases (Nat.Prime.dvd_mul hq).mp h with h | h
    · have he := prime_eq_of_dvd_pow q 281 1 hq (by norm_num) h
      subst he
      exact pow_ne_one_via 10489845818524887021689201254173392444641 13 (10489845818524887021689201254173392444640 / 281) 256 (by norm_num) (by decide) (by decide)
    rcases (Nat.Prime.dvd_mul hq).mp h with h | h
    · have he := prime_eq_of_dvd_pow q 3119 1 hq (by norm_num) h
      subst he
      exact pow_ne_one_via 10489845818524887021689201254173392444641 13 (10489845818524887021689201254173392444640 / 3119) 256 (by norm_num) (by decide) (by decide)
    rcases (Nat.Prime.dvd_mul hq).mp h with h | h
    · have he := prime_eq_of_dvd_pow q 11113956389 1 hq prime_11113956389 h
      subst he
      exact pow_ne_one_via 10489845818524887021689201254173392444641 13 (10489845818524887021689201254173392444640 / 11113956389) 256 (by norm_num) (by decide) (by decide)
    rcases (Nat.Prime.dvd_mul hq).mp h with h | h
    · have he := prime_eq_of_dvd_pow q 16189543961 1 hq prime_16189543961 h
      subst he
      exact pow_ne_one_via 10489845818524887021689201254173392444641 13 (10489845818524887021689201254173392444640 / 16189543961) 256 (by norm_num) (by decide) (by decide)
    · have he := prime_eq_of_dvd_pow q 138580737803 1 hq prime_138580737803 h
      subst he
      exact pow_ne_one_via 10489845818524887021689201254173392444641 13 (10489845818524887021689201254173392444640 / 138580737803) 256 (by norm_num) (by decide) (by decide)

theorem prime_6277101735386680763835789423207666416102355444459739541047 : Nat.Prime 6277101735386680763835789423207666416102355444459739541047 := by
  apply lucas_primality 6277101735386680763835789423207666416102355444459739541047 ((3 : Nat) : ZMod 6277101735386680763835789423207666416102355444459739541047)
  · exact pow_eq_one_via 6277101735386680763835789423207666416102355444459739541047 3 256 (by norm_num) (by decide) (by decide)
  · intro q hq hdvd
    have hfact : 6277101735386680763835789423207666416102355444459739541047 - 1 = 2 ^ 1 * (3 ^ 1 * (7 ^ 1 * (11 ^ 1 * (1295233555201613 ^ 1 * (10489845818524887021689201254173392444641 ^ 1))))) := by decide
    rw [hfact] at hdvd
    rcases (Nat.Prime.dvd_mul hq).mp hdvd with h | h
    · have he := prime_eq_of_dvd_pow q 2 1 hq (by norm_num) h
      subst he
      exact pow_ne_one_via 6277101735386680763835789423207666416102355444459739541047 3 (6277101735386680763835789423207666416102355444459739541046 / 2) 256 (by norm_num) (by decide) (by decide)
    rcases (Nat.Prime.dvd_mul hq).mp h with h | h
    · have he := prime_eq_of_dvd_pow q 3 1 hq (by norm_num) h
      subst he
      exact pow_ne_one_via 6277101735386680763835789423207666416102355444459739541047 3 (6277101735386680763835789423207666416102355444459739541046 / 3) 256 (by norm_num) (by decide) (by decide)
    rcases (Nat.Prime.dvd_mul hq).mp h with h | h
    · have he := prime_eq_of_dvd_pow q 7 1 hq (by norm_num) h
      subst he
      exact pow_ne_one_via 6277101735386680763835789423207666416102355444459739541047 3 (6277101735386680763835789423207666416102355444459739541046 / 7) 256 (by norm_num) (by decide) (by decide)
    rcases (Nat.Prime.dvd_mul hq).mp h with h | h
    · have he := prime_eq_of_dvd_pow q 11 1 hq (by norm_num) h
      subst he
      exact pow_ne_one_via 6277101735386680763835789423207666416102355444459739541047 3 (6277101735386680763835789423207666416102355444459739541046 / 11) 256 (by norm_num) (by decide) (by decide)
    rcases (Nat.Prime.dvd_mul hq).mp h with h | h
    · have he := prime_eq_of_dvd_pow q 1295233555201613 1 hq prime_1295233555201613 h
      subst he
      exact pow_ne_one_via 6277101735386680763835789423207666416102355444459739541047 3 (6277101735386680763835789423207666416102355444459739541046 / 1295233555201613) 256 (by norm_num) (by decide) (by decide)
    · have he := prime_eq_of_dvd_pow q 10489845818524887021689201254173392444641 1 hq prime_10489845818524887021689201254173392444641 h
      subst he
      exact pow_ne_one_via 6277101735386680763835789423207666416102355444459739541047 3 (6277101735386680763835789423207666416102355444459739541046 / 10489845818524887021689201254173392444641) 256 (by norm_num) (by decide) (by decide)

/-- The p192k1 base field prime is prime (Lucas certificate chain). -/
theorem p192k1_P_prime : Nat.Prime p192k1_P := by
  have h : p192k1_P = 6277101735386680763835789423207666416102355444459739541047 := by decide
  rw [h]
  exact prime_6277101735386680763835789423207666416102355444459739541047

theorem sq_iterate {F : Type} [CommRing F] (n : Nat) (x : F) :
    (fun y => y * y)^[n] x = x ^ (2 ^ n) := by
  induction n generalizing x with
  | zero => simp
  | succ n ih =>
      rw [Function.iterate_succ_apply, ih]
      have h : 2 ^ n + 2 ^ n = 2 ^ (n + 1) := by rw [pow_succ]; ring
      rw [mul_pow, ← pow_add, h]

theorem square_rep_eq {F : Type} [CommRing F] (x : F) (count : Nat) :
    square_rep x count = x ^ (2 ^ (count - 1) * 2) := by
  unfold square_rep fe_square
  rw [sq_iterate]
  rw [mul_pow, ← pow_add]
  have h : 2 ^ (count - 1) + 2 ^ (count - 1) = 2 ^ (count - 1) * 2 := by ring
  rw [h]

theorem square_rep_zero {F : Type} [CommRing F] (c : Nat) :
    square_rep (0 : F) c = 0 := by
  rw [square_rep_eq]
  exact zero_pow (by positivity)

theorem p192_sqrt_t_eq (a : ZMod p192k1_P) :
    (P192K1.sqrt a).t = a ^ ((p192k1_P + 1) / 4) := by
  unfold P192K1.sqrt
  simp only [square_rep_eq, fe_square]
  rw [show (p192k1_P + 1) / 4
      = 1569275433846670190958947355801916604025588861114934885262 from by decide]
  ring

theorem p192_sqrt_present_iff_check (a : ZMod p192k1_P) :
    (P192K1.sqrt a).present = true ↔ (P192K1.sqrt a).t * (P192K1.sqrt a).t = a := by
  unfold P192K1.sqrt
  simp only [decide_eq_true_eq]

theorem p192_sqrt_spec_aux (a : ZMod p192k1_P) :
    ((P192K1.sqrt a).present = true ↔ IsSquare a) ∧
    ((P192K1.sqrt a).present = true →
      (P192K1.sqrt a).t * (P192K1.sqrt a).t = a) := by
  haveI hfp : Fact (Nat.Prime p192k1_P) := ⟨p192k1_P_prime⟩
  constructor
  · constructor
    · intro h
      have ht := (p192_sqrt_present_iff_check a).mp h
      exact ⟨(P192K1.sqrt a).t, ht.symm⟩
    · intro hsq
      rw [p192_sqrt_present_iff_check]
      rw [p192_sqrt_t_eq]
      rcases eq_or_ne a 0 with h0 | h0
      · subst h0
        rw [zero_pow (by decide)]
        ring
      · rw [← pow_add]
        have h2E : (p192k1_P + 1) / 4 + (p192k1_P + 1) / 4 = p192k1_P / 2 + 1 := by decide
        rw [h2E, pow_succ]
        have heuler := (ZMod.euler_criterion p192k1_P h0).mp hsq
        rw [heuler, one_mul]
  · intro h
    exact (p192_sqrt_present_iff_check a).mp h


/-- C9 (counterexample): the fiat-backed secp256k1 `Scalar::inverse`
of `curve/sec2/p256k1/gm.rs` has no `assert!(!self.is_zero())` guard;
called on the zero scalar it returns a value (the chain output, 0)
instead of panicking, so the claim fails for that Scalar. -/
theorem p256k1_scalar_inverse_zero_counterexample :
    P256K1.scalar_inverse 0 = some 0 := by
  unfold P256K1.scalar_inverse
  simp only [fe_square, mul_zero, zero_mul, square_rep_zero]

/-- C9 (amended): calling `inverse` on the zero element hits the
`assert!(!self.is_zero())` guard and never returns a value for the
fiat-backed field elements and scalars that carry the guard — here the
cited p192k1 `FieldElement`, the p192k1 `Scalar` and the p256k1
`FieldElement` — but the p256k1 `Scalar::inverse` of
`curve/sec2/p256k1/gm.rs` carries no guard and returns a value for the
zero input. -/
theorem inverse_zero_panics_except_p256k1_scalar :
    P192K1.inverse 0 = none ∧ P192K1.scalar_inverse 0 = none ∧
    P256K1.inverse 0 = none ∧ (P256K1.scalar_inverse 0).isSome = true := by
  refine ⟨?_, ?_, ?_, ?_⟩
  · unfold P192K1.inverse
    rw [if_pos rfl]
  · unfold P192K1.scalar_inverse
    rw [if_pos rfl]
  · unfold P256K1.inverse
    rw [if_pos rfl]
  · rfl

theorem p192_neg_three_not_cube :
    ((p192k1_P - 3 : Nat) : ZMod p192k1_P) ^ ((p192k1_P - 1) / 3) ≠ 1 :=
  pow_ne_one_via p192k1_P (p192k1_P - 3) ((p192k1_P - 1) / 3) 256 (by decide)
    (by decide) (by decide)

theorem p192_no_two_torsion (x : ZMod p192k1_P) :
    fe_square x * x + P192K1.curve.a * x + P192K1.curve.b ≠ 0 := by
  haveI hfp : Fact (Nat.Prime p192k1_P) := ⟨p192k1_P_prime⟩
  intro heq
  have hcurve : P192K1.curve.a = 0 ∧ P192K1.curve.b = (3 : ZMod p192k1_P) := ⟨rfl, rfl⟩
  rw [hcurve.1, hcurve.2] at heq
  have hcube : x * x * x = -3 := by
    unfold fe_square at heq
    linear_combination heq
  have hx0 : x ≠ 0 := by
    intro h
    subst h
    have h3 : (3 : ZMod p192k1_P) ≠ 0 := by
      have hn : ((3 : Nat) : ZMod p192k1_P) ≠ 0 := by
        rw [Ne, ZMod.natCast_zmod_eq_zero_iff_dvd]
        decide
      simpa using hn
    exact h3 (by linear_combination hcube)
  have hcast : ((p192k1_P - 3 : Nat) : ZMod p192k1_P) = -3 := by
    rw [Nat.cast_sub (by decide)]
    rw [ZMod.natCast_self]
    norm_num
  apply p192_neg_three_not_cube
  rw [hcast, ← hcube]
  have h1 : x * x * x = x ^ 3 := by ring
  rw [h1, ← pow_mul]
  rw [show 3 * ((p192k1_P - 1) / 3) = p192k1_P - 1 from by decide]
  exact ZMod.pow_card_sub_one_eq_one hx0

theorem p192_sign_neg_flip (y : ZMod p192k1_P) (hy : y ≠ 0) :
    P192K1.sign (-y) ≠ P192K1.sign y := by
  haveI : NeZero p192k1_P := ⟨by decide⟩
  unfold P192K1.sign
  have hneg : (-y).val = p192k1_P - y.val := by
    rw [ZMod.neg_val]
    rw [if_neg hy]
  have hvlt : y.val < p192k1_P := ZMod.val_lt y
  have hv0 : y.val ≠ 0 := fun h => hy (ZMod.val_eq_zero y |>.mp h)
  have hodd : p192k1_P % 2 = 1 := by decide
  rw [hneg]
  have hpar : (p192k1_P - y.val) % 2 ≠ y.val % 2 := by omega
  split
  · rename_i h1
    split
    · rename_i h2
      omega
    · rename_i h2
      intro hc
      exact Sign.noConfusion hc
  · rename_i h1
    split
    · rename_i h2
      intro hc
      exact Sign.noConfusion hc
    · rename_i h2
      omega

/-- C8: for the p192k1 curve, decompression returns nothing exactly
when x^3 + A x + B has no square root in the field, and every returned
point (x, y) satisfies y * y = x^3 + A x + B with the sign of y equal
to the requested sign. -/
theorem decompress_correct_p192k1 (x : ZMod p192k1_P) (s : Sign) :
    (AffPoint.decompress P192K1.sqrt P192K1.sign x s P192K1.curve = none
      ↔ ¬IsSquare (fe_square x * x + P192K1.curve.a * x + P192K1.curve.b)) ∧
    (∀ pt, AffPoint.decompress P192K1.sqrt P192K1.sign x s P192K1.curve = some pt →
      pt.x = x ∧
      pt.y * pt.y = fe_square x * x + P192K1.curve.a * x + P192K1.curve.b ∧
      P192K1.sign pt.y = s) := by
  have haux := p192_sqrt_spec_aux (fe_square x * x + P192K1.curve.a * x + P192K1.curve.b)
  have hyy0 := p192_no_two_torsion x
  unfold AffPoint.decompress
  simp only [CtOption.into_option]
  cases hpres : (P192K1.sqrt (fe_square x * x + P192K1.curve.a * x + P192K1.curve.b)).present with
  | false =>
      simp only [hpres, Bool.false_eq_true, if_false]
      constructor
      · constructor
        · intro _
          rw [← haux.1, hpres]
          simp
        · intro _
          trivial
      · intro pt hpt
        simp at hpt
  | true =>
      simp only [hpres, if_true]
      have hts := haux.2 hpres
      have hy0 : (P192K1.sqrt (fe_square x * x + P192K1.curve.a * x + P192K1.curve.b)).t ≠ 0 := by
        intro h
        rw [h, mul_zero] at hts
        exact hyy0 hts.symm
      constructor
      · constructor
        · intro hc
          split at hc <;> simp at hc
        · intro hns
          exact absurd (haux.1.mp hpres) hns
      · intro pt hpt
        split at hpt
        · rename_i hsign
          have hinj : ({ x := x, y := (P192K1.sqrt (fe_square x * x + P192K1.curve.a * x + P192K1.curve.b)).t } : AffPoint (ZMod p192k1_P)) = pt := by
            injection hpt
          subst hinj
          exact ⟨rfl, hts, hsign⟩
        · rename_i hsign
          have hinj : ({ x := x, y := -(P192K1.sqrt (fe_square x * x + P192K1.curve.a * x + P192K1.curve.b)).t } : AffPoint (ZMod p192k1_P)) = pt := by
            injection hpt
          subst hinj
          refine ⟨rfl, by simpa using hts, ?_⟩
          have hflip := p192_sign_neg_flip _ hy0
          cases s with
          | Positive =>
              cases h1 : P192K1.sign (P192K1.sqrt (fe_square x * x + P192K1.curve.a * x + P192K1.curve.b)).t with
              | Positive => exact absurd h1 hsign
              | Negative =>
                  cases h2 : P192K1.sign (-(P192K1.sqrt (fe_square x * x + P192K1.curve.a * x + P192K1.curve.b)).t) with
                  | Positive => rfl
                  | Negative => rw [h1, h2] at hflip; exact absurd rfl hflip
          | Negative =>
              cases h1 : P192K1.sign (P192K1.sqrt (fe_square x * x + P192K1.curve.a * x + P192K1.curve.b)).t with
              | Negative => exact absurd h1 hsign
              | Positive =>
                  cases h2 : P192K1.sign (-(P192K1.sqrt (fe_square x * x + P192K1.curve.a * x + P192K1.curve.b)).t) with
                  | Negative => rfl
                  | Positive => rw [h1, h2] at hflip; exact absurd rfl hflip

theorem prime_13331831 : Nat.Prime 13331831 := by
  apply lucas_primality 13331831 ((13 : Nat) : ZMod 13331831)
  · exact pow_eq_one_via 13331831 13 256 (by norm_num) (by decide) (by decide)
  · intro q hq hdvd
    have hfact : 13331831 - 1 = 2 ^ 1 * (5 ^ 1 * (971 ^ 1 * (1373 ^ 1))) := by decide
    rw [hfact] at hdvd
    rcases (Nat.Prime.dvd_mul hq).mp hdvd with h | h
    · have he := prime_eq_of_dvd_pow q 2 1 hq (by norm_num) h
      subst he
      exact pow_ne_one_via 13331831 13 (13331830 / 2) 256 (by norm_num) (by decide) (by decide)
    rcases (Nat.Prime.dvd_mul hq).mp h with h | h
    · have he := prime_eq_of_dvd_pow q 5 1 hq (by norm_num) h
      subst he
      exact pow_ne_one_via 13331831 13 (13331830 / 5) 256 (by norm_num) (by decide) (by decide)
    rcases (Nat.Prime.dvd_mul hq).mp h with h | h
    · have he := prime_eq_of_dvd_pow q 971 1 hq (by norm_num) h
      subst he
      exact pow_ne_one_via 13331831 13 (13331830 / 971) 256 (by norm_num) (by decide) (by decide)
    · have he := prime_eq_of_dvd_pow q 1373 1 hq (by norm_num) h
      subst he
      exact pow_ne_one_via 13331831 13 (13331830 / 1373) 256 (by norm_num) (by decide) (by decide)

theorem prime_173378833005251801 : Nat.Prime 173378833005251801 := by
  apply lucas_primality 173378833005251801 ((6 : Nat) : ZMod 173378833005251801)
  · exact pow_eq_one_via 173378833005251801 6 256 (by norm_num) (by decide) (by decide)
  · intro q hq hdvd
    have hfact : 173378833005251801 - 1 = 2 ^ 3 * (5 ^ 2 * (2621 ^ 1 * (24809 ^ 1 * (13331831 ^ 1)))) := by decide
    rw [hfact] at hdvd
    rcases (Nat.Prime.dvd_mul hq).mp hdvd with h | h
    · have he := prime_eq_of_dvd_pow q 2 3 hq (by norm_num) h
      subst he
      exact pow_ne_one_via 173378833005251801 6 (173378833005251800 / 2) 256 (by norm_num) (by decide) (by decide)
    rcases (Nat.Prime.dvd_mul hq).mp h with h | h
    · have he := prime_eq_of_dvd_pow q 5 2 hq (by norm_num) h
      subst he
      exact pow_ne_one_via 173378833005251801 6 (173378833005251800 / 5) 256 (by norm_num) (by decide) (by decide)
    rcases (Nat.Prime.dvd_mul hq).mp h with h | h
    · have he := prime_eq_of_dvd_pow q 2621 1 hq (by norm_num) h
      subst he
      exact pow_ne_one_via 173378833005251801 6 (173378833005251800 / 2621) 256 (by norm_num) (by decide) (by decide)
    rcases (Nat.Prime.dvd_mul hq).mp h with h | h
    · have he := prime_eq_of_dvd_pow q 24809 1 hq (by norm_num) h
      subst he
      exact pow_ne_one_via 173378833005251801 6 (173378833005251800 / 24809) 256 (by norm_num) (by decide) (by decide)
    · have he := prime_eq_of_dvd_pow q 13331831 1 hq prime_13331831 h
      subst he
      exact pow_ne_one_via 173378833005251801 6 (173378833005251800 / 13331831) 256 (by norm_num) (by decide) (by decide)

theorem prime_22149492674086928081353 : Nat.Prime 22149492674086928081353 := by
  apply lucas_primality 22149492674086928081353 ((5 : Nat) : ZMod 22149492674086928081353)
  · exact pow_eq_one_via 22149492674086928081353 5 256 (by norm_num) (by decide) (by decide)
  · intro q hq hdvd
    have hfact : 22149492674086928081353 - 1 = 2 ^ 3 * (3 ^ 1 * (5323 ^ 1 * (173378833005251801 ^ 1))) := by decide
    rw [hfact] at hdvd
    rcases (Nat.Prime.dvd_mul hq).mp hdvd with h | h
    · have he := prime_eq_of_dvd_pow q 2 3 hq (by norm_num) h
      subst he
      exact pow_ne_one_via 22149492674086928081353 5 (22149492674086928081352 / 2) 256 (by norm_num) (by decide) (by decide)
    rcases (Nat.Prime.dvd_mul hq).mp h with h | h
    · have he := prime_eq_of_dvd_pow q 3 1 hq (by norm_num) h
      subst he
      exact pow_ne_one_via 22149492674086928081353 5 (22149492674086928081352 / 3) 256 (by norm_num) (by decide) (by decide)
    rcases (Nat.Prime.dvd_mul hq).mp h with h | h
    · have he := prime_eq_of_dvd_pow q 5323 1 hq (by norm_num) h
      subst he
      exact pow_ne_one_via 22149492674086928081353 5 (22149492674086928081352 / 5323) 256 (by norm_num) (by decide) (by decide)
    · have he := prime_eq_of_dvd_pow q 173378833005251801 1 hq prime_173378833005251801 h
      subst he
      exact pow_ne_one_via 22149492674086928081353 5 (22149492674086928081352 / 173378833005251801) 256 (by norm_num) (by decide) (by decide)

theorem prime_132896956044521568488119 : Nat.Prime 132896956044521568488119 := by
  apply lucas_primality 132896956044521568488119 ((6 : Nat) : ZMod 132896956044521568488119)
  · exact pow_eq_one_via 132896956044521568488119 6 256 (by norm_num) (by decide) (by decide)
  · intro q hq hdvd
    have hfact : 132896956044521568488119 - 1 = 2 ^ 1 * (3 ^ 1 * (22149492674086928081353 ^ 1)) := by decide
    rw [hfact] at hdvd
    rcases (Nat.Prime.dvd_mul hq).mp hdvd with h | h
    · have he := prime_eq_of_dvd_pow q 2 1 hq (by norm_num) h
      subst he
      exact pow_ne_one_via 132896956044521568488119 6 (132896956044521568488118 / 2) 256 (by norm_num) (by decide) (by decide)
    rcases (Nat.Prime.dvd_mul hq).mp h with h | h
    · have he := prime_eq_of_dvd_pow q 3 1 hq (by norm_num) h
      subst he
      exact pow_ne_one_via 132896956044521568488119 6 (132896956044521568488118 / 3) 256 (by norm_num) (by decide) (by decide)
    · have he := prime_eq_of_dvd_pow q 22149492674086928081353 1 hq prime_22149492674086928081353 h
      subst he
      exact pow_ne_one_via 132896956044521568488119 6 (132896956044521568488118 / 22149492674086928081353) 256 (by norm_num) (by decide) (by decide)

theorem prime_1206781 : Nat.Prime 1206781 := by
  apply lucas_primality 1206781 ((10 : Nat) : ZMod 1206781)
  · exact pow_eq_one_via 1206781 10 256 (by norm_num) (by decide) (by decide)
  · intro q hq hdvd
    have hfact : 1206781 - 1 = 2 ^ 2 * (3 ^ 1 * (5 ^ 1 * (20113 ^ 1))) := by decide
    rw [hfact] at hdvd
    rcases (Nat.Prime.dvd_mul hq).mp hdvd with h | h
    · have he := prime_eq_of_dvd_pow q 2 2 hq (by norm_num) h
      subst he
      exact pow_ne_one_via 1206781 10 (1206780 / 2) 256 (by norm_num) (by decide) (by decide)
    rcases (Nat.Prime.dvd_mul hq).mp h with h | h
    · have he := prime_eq_of_dvd_pow q 3 1 hq (by norm_num) h
      subst he
      exact pow_ne_one_via 1206781 10 (1206780 / 3) 256 (by norm_num) (by decide) (by decide)
    rcases (Nat.Prime.dvd_mul hq).mp h with h | h
    · have he := prime_eq_of_dvd_pow q 5 1 hq (by norm_num) h
      subst he
      exact pow_ne_one_via 1206781 10 (1206780 / 5) 256 (by norm_num) (by decide) (by decide)
    · have he := prime_eq_of_dvd_pow q 20113 1 hq (by norm_num) h
      subst he
      exact pow_ne_one_via 1206781 10 (1206780 / 20113) 256 (by norm_num) (by decide) (by decide)

theorem prime_7240687 : Nat.Prime 7240687 := by
  apply lucas_primality 7240687 ((3 : Nat) : ZMod 7240687)
  · exact pow_eq_one_via 7240687 3 256 (by norm_num) (by decide) (by decide)
  · intro q hq hdvd
    have hfact : 7240687 - 1 = 2 ^ 1 * (3 ^ 1 * (1206781 ^ 1)) := by decide
    rw [hfact] at hdvd
    rcases (Nat.Prime.dvd_mul hq).mp hdvd with h | h
    · have he := prime_eq_of_dvd_pow q 2 1 hq (by norm_num) h
      subst he
      exact pow_ne_one_via 7240687 3 (7240686 / 2) 256 (by norm_num) (by decide) (by decide)
    rcases (Nat.Prime.dvd_mul hq).mp h with h | h
    · have he := prime_eq_of_dvd_pow q 3 1 hq (by norm_num) h
      subst he
      exact pow_ne_one_via 7240687 3 (7240686 / 3) 256 (by norm_num) (by decide) (by decide)
    · have he := prime_eq_of_dvd_pow q 1206781 1 hq prime_1206781 h
      subst he
      exact pow_ne_one_via 7240687 3 (7240686 / 1206781) 256 (by norm_num) (by decide) (by decide)

theorem prime_107590001 : Nat.Prime 107590001 := by
  apply lucas_primality 107590001 ((3 : Nat) : ZMod 107590001)
  · exact pow_eq_one_via 107590001 3 256 (by norm_num) (by decide) (by decide)
  · intro q hq hdvd
    have hfact : 107590001 - 1 = 2 ^ 4 * (5 ^ 4 * (7 ^ 1 * (29 ^ 1 * (53 ^ 1)))) := by decide
    rw [hfact] at hdvd
    rcases (Nat.Prime.dvd_mul hq).mp hdvd with h | h
    · have he := prime_eq_of_dvd_pow q 2 4 hq (by norm_num) h
      subst he
      exact pow_ne_one_via 107590001 3 (107590000 / 2) 256 (by norm_num) (by decide) (by decide)
    rcases (Nat.Prime.dvd_mul hq).mp h with h | h
    · have he := prime_eq_of_dvd_pow q 5 4 hq (by norm_num) h
      subst he
      exact pow_ne_one_via 107590001 3 (107590000 / 5) 256 (by norm_num) (by decide) (by decide)
    rcases (Nat.Prime.dvd_mul hq).mp h with h | h
    · have he := prime_eq_of_dvd_pow q 7 1 hq (by norm_num) h
      subst he
      exact pow_ne_one_via 107590001 3 (107590000 / 7) 256 (by norm_num) (by decide) (by decide)
    rcases (Nat.Prime.dvd_mul hq).mp h with h | h
    · have he := prime_eq_of_dvd_pow q 29 1 hq (by norm_num) h
      subst he
      exact pow_ne_one_via 107590001 3 (107590000 / 29) 256 (by norm_num) (by decide) (by decide)
    · have he := prime_eq_of_dvd_pow q 53 1 hq (by norm_num) h
      subst he
      exact pow_ne_one_via 107590001 3 (107590000 / 53) 256 (by norm_num) (by decide) (by decide)

theorem prime_255515944373312847190720520512484175977 : Nat.Prime 255515944373312847190720520512484175977 := by
  apply lucas_primality 255515944373312847190720520512484175977 ((3 : Nat) : ZMod 255515944373312847190720520512484175977)
  · exact pow_eq_one_via 255515944373312847190720520512484175977 3 256 (by norm_num) (by decide) (by decide)
  · intro q hq hdvd
    have hfact : 255515944373312847190720520512484175977 - 1 = 2 ^ 3 * (7 ^ 2 * (11 ^ 1 * (1627 ^ 1 * (2657 ^ 1 * (4423 ^ 1 * (41201 ^ 1 * (96557 ^ 1 * (7240687 ^ 1 * (107590001 ^ 1))))))))) := by decide
    rw [hfact] at hdvd
    rcases (Nat.Prime.dvd_mul hq).mp hdvd with h | h
    · have he := prime_eq_of_dvd_pow q 2 3 hq (by norm_num) h
      subst he
      exact pow_ne_one_via 255515944373312847190720520512484175977 3 (255515944373312847190720520512484175976 / 2) 256 (by norm_num) (by decide) (by decide)
    rcases (Nat.Prime.dvd_mul hq).mp h with h | h
    · have he := prime_eq_of_dvd_pow q 7 2 hq (by norm_num) h
      subst he
      exact pow_ne_one_via 255515944373312847190720520512484175977 3 (255515944373312847190720520512484175976 / 7) 256 (by norm_num) (by decide) (by decide)
    rcases (Nat.Prime.dvd_mul hq).mp h with h | h
    · have he := prime_eq_of_dvd_pow q 11 1 hq (by norm_num) h
      subst he
      exact pow_ne_one_via 255515944373312847190720520512484175977 3 (255515944373312847190720520512484175976 / 11) 256 (by norm_num) (by decide) (by decide)
    rcases (Nat.Prime.dvd_mul hq).mp h with h | h
    · have he := prime_eq_of_dvd_pow q 1627 1 hq (by norm_num) h
      subst he
      exact pow_ne_one_via 255515944373312847190720520512484175977 3 (255515944373312847190720520512484175976 / 1627) 256 (by norm_num) (by decide) (by decide)
    rcases (Nat.Prime.dvd_mul hq).mp h with h | h
    · have he := prime_eq_of_dvd_pow q 2657 1 hq (by norm_num) h
      subst he
      exact pow_ne_one_via 255515944373312847190720520512484175977 3 (255515944373312847190720520512484175976 / 2657) 256 (by norm_num) (by decide) (by decide)
    rcases (Nat.Prime.dvd_mul hq).mp h with h | h
    · have he := prime_eq_of_dvd_pow q 4423 1 hq (by norm_num) h
      subst he
      exact pow_ne_one_via 255515944373312847190720520512484175977 3 (255515944373312847190720520512484175976 / 4423) 256 (by norm_num) (by decide) (by decide)
    rcases (Nat.Prime.dvd_mul hq).mp h with h | h
    · have he := prime_eq_of_dvd_pow q 41201 1 hq (by norm_num) h
      subst he
      exact pow_ne_one_via 255515944373312847190720520512484175977 3 (255515944373312847190720520512484175976 / 41201) 256 (by norm_num) (by decide) (by decide)
    rcases (Nat.Prime.dvd_mul hq).mp h with h | h
    · have he := prime_eq_of_dvd_pow q 96557 1 hq (by norm_num) h
      subst he
      exact pow_ne_one_via 255515944373312847190720520512484175977 3 (255515944373312847190720520512484175976 / 96557) 256 (by norm_num) (by decide) (by decide)
    rcases (Nat.Prime.dvd_mul hq).mp h with h | h
    · have he := prime_eq_of_dvd_pow q 7240687 1 hq prime_7240687 h
      subst he
      exact pow_ne_one_via 255515944373312847190720520512484175977 3 (255515944373312847190720520512484175976 / 7240687) 256 (by norm_num) (by decide) (by decide)
    · have he := prime_eq_of_dvd_pow q 107590001 1 hq prime_107590001 h
      subst he
      exact pow_ne_one_via 255515944373312847190720520512484175977 3 (255515944373312847190720520512484175976 / 107590001) 256 (by norm_num) (by decide) (by decide)

theorem prime_205115282021455665897114700593932402728804164701536103180137503955397371 : Nat.Prime 205115282021455665897114700593932402728804164701536103180137503955397371 := by
  apply lucas_primality 205115282021455665897114700593932402728804164701536103180137503955397371 ((10 : Nat) : ZMod 205115282021455665897114700593932402728804164701536103180137503955397371)
  · exact pow_eq_one_via 205115282021455665897114700593932402728804164701536103180137503955397371 10 256 (by norm_num) (by decide) (by decide)
  · intro q hq hdvd
    have hfact : 205115282021455665897114700593932402728804164701536103180137503955397371 - 1 = 2 ^ 1 * (3 ^ 1 * (5 ^ 1 * (29 ^ 2 * (31 ^ 1 * (7723 ^ 1 * (132896956044521568488119 ^ 1 * (255515944373312847190720520512484175977 ^ 1))))))) := by decide
    rw [hfact] at hdvd
    rcases (Nat.Prime.dvd_mul hq).mp hdvd with h | h
    · have he := prime_eq_of_dvd_pow q 2 1 hq (by norm_num) h
      subst he
      exact pow_ne_one_via 205115282021455665897114700593932402728804164701536103180137503955397371 10 (205115282021455665897114700593932402728804164701536103180137503955397370 / 2) 256 (by norm_num) (by decide) (by decide)
    rcases (Nat.Prime.dvd_mul hq).mp h with h | h
    · have he := prime_eq_of_dvd_pow q 3 1 hq (by norm_num) h
      subst he
      exact pow_ne_one_via 205115282021455665897114700593932402728804164701536103180137503955397371 10 (205115282021455665897114700593932402728804164701536103180137503955397370 / 3) 256 (by norm_num) (by decide) (by decide)
    rcases (Nat.Prime.dvd_mul hq).mp h with h | h
    · have he := prime_eq_of_dvd_pow q 5 1 hq (by norm_num) h
      subst he
      exact pow_ne_one_via 205115282021455665897114700593932402728804164701536103180137503955397371 10 (205115282021455665897114700593932402728804164701536103180137503955397370 / 5) 256 (by norm_num) (by decide) (by decide)
    rcases (Nat.Prime.dvd_mul hq).mp h with h | h
    · have he := prime_eq_of_dvd_pow q 29 2 hq (by norm_num) h
      subst he
      exact pow_ne_one_via 205115282021455665897114700593932402728804164701536103180137503955397371 10 (205115282021455665897114700593932402728804164701536103180137503955397370 / 29) 256 (by norm_num) (by decide) (by decide)
    rcases (Nat.Prime.dvd_mul hq).mp h with h | h
    · have he := prime_eq_of_dvd_pow q 31 1 hq (by norm_num) h
      subst he
      exact pow_ne_one_via 205115282021455665897114700593932402728804164701536103180137503955397371 10 (205115282021455665897114700593932402728804164701536103180137503955397370 / 31) 256 (by norm_num) (by decide) (by decide)
    rcases (Nat.Prime.dvd_mul hq).mp h with h | h
    · have he := prime_eq_of_dvd_pow q 7723 1 hq (by norm_num) h
      subst he
      exact pow_ne_one_via 205115282021455665897114700593932402728804164701536103180137503955397371 10 (205115282021455665897114700593932402728804164701536103180137503955397370 / 7723) 256 (by norm_num) (by decide) (by decide)
    rcases (Nat.Prime.dvd_mul hq).mp h with h | h
    · have he := prime_eq_of_dvd_pow q 132896956044521568488119 1 hq prime_132896956044521568488119 h
      subst he
      exact pow_ne_one_via 205115282021455665897114700593932402728804164701536103180137503955397371 10 (205115282021455665897114700593932402728804164701536103180137503955397370 / 132896956044521568488119) 256 (by norm_num) (by decide) (by decide)
    · have he := prime_eq_of_dvd_pow q 255515944373312847190720520512484175977 1 hq prime_255515944373312847190720520512484175977 h
      subst he
      exact pow_ne_one_via 205115282021455665897114700593932402728804164701536103180137503955397371 10 (205115282021455665897114700593932402728804164701536103180137503955397370 / 255515944373312847190720520512484175977) 256 (by norm_num) (by decide) (by decide)

theorem prime_115792089237316195423570985008687907853269984665640564039457584007908834671663 : Nat.Prime 115792089237316195423570985008687907853269984665640564039457584007908834671663 := by
  apply lucas_primality 115792089237316195423570985008687907853269984665640564039457584007908834671663 ((3 : Nat) : ZMod 115792089237316195423570985008687907853269984665640564039457584007908834671663)
  · exact pow_eq_one_via 115792089237316195423570985008687907853269984665640564039457584007908834671663 3 256 (by norm_num) (by decide) (by decide)
  · intro q hq hdvd
    have hfact : 115792089237316195423570985008687907853269984665640564039457584007908834671663 - 1 = 2 ^ 1 * (3 ^ 1 * (7 ^ 1 * (13441 ^ 1 * (205115282021455665897114700593932402728804164701536103180137503955397371 ^ 1)))) := by decide
    rw [hfact] at hdvd
    rcases (Nat.Prime.dvd_mul hq).mp hdvd with h | h
    · have he := prime_eq_of_dvd_pow q 2 1 hq (by norm_num) h
      subst he
      exact pow_ne_one_via 115792089237316195423570985008687907853269984665640564039457584007908834671663 3 (115792089237316195423570985008687907853269984665640564039457584007908834671662 / 2) 256 (by norm_num) (by decide) (by decide)
    rcases (Nat.Prime.dvd_mul hq).mp h with h | h
    · have he := prime_eq_of_dvd_pow q 3 1 hq (by norm_num) h
      subst he
      exact pow_ne_one_via 115792089237316195423570985008687907853269984665640564039457584007908834671663 3 (115792089237316195423570985008687907853269984665640564039457584007908834671662 / 3) 256 (by norm_num) (by decide) (by decide)
    rcases (Nat.Prime.dvd_mul hq).mp h with h | h
    · have he := prime_eq_of_dvd_pow q 7 1 hq (by norm_num) h
      subst he
      exact pow_ne_one_via 115792089237316195423570985008687907853269984665640564039457584007908834671663 3 (115792089237316195423570985008687907853269984665640564039457584007908834671662 / 7) 256 (by norm_num) (by decide) (by decide)
    rcases (Nat.Prime.dvd_mul hq).mp h with h | h
    · have he := prime_eq_of_dvd_pow q 13441 1 hq (by norm_num) h
      subst he
      exact pow_ne_one_via 115792089237316195423570985008687907853269984665640564039457584007908834671663 3 (115792089237316195423570985008687907853269984665640564039457584007908834671662 / 13441) 256 (by norm_num) (by decide) (by decide)
    · have he := prime_eq_of_dvd_pow q 205115282021455665897114700593932402728804164701536103180137503955397371 1 hq prime_205115282021455665897114700593932402728804164701536103180137503955397371 h
      subst he
      exact pow_ne_one_via 115792089237316195423570985008687907853269984665640564039457584007908834671663 3 (115792089237316195423570985008687907853269984665640564039457584007908834671662 / 205115282021455665897114700593932402728804164701536103180137503955397371) 256 (by norm_num) (by decide) (by decide)

theorem p256k1_P_prime : Nat.Prime p256k1_P := by
  have h : p256k1_P
      = 115792089237316195423570985008687907853269984665640564039457584007908834671663 := by
    decide
  rw [h]
  exact prime_115792089237316195423570985008687907853269984665640564039457584007908834671663

theorem p256_sqrt_t_eq (a : ZMod p256k1_P) :
    (P256K1.sqrt a).t = a ^ ((p256k1_P + 1) / 4) := by
  unfold P256K1.sqrt
  simp only [square_rep_eq, fe_square]
  rw [show (p256k1_P + 1) / 4
      = 28948022309329048855892746252171976963317496166410141009864396001977208667916
      from by decide]
  ring

theorem p256_sqrt_present_iff_check (a : ZMod p256k1_P) :
    (P256K1.sqrt a).present = true ↔ (P256K1.sqrt a).t * (P256K1.sqrt a).t = a := by
  unfold P256K1.sqrt
  simp only [decide_eq_true_eq]

theorem p256_sqrt_spec_aux (a : ZMod p256k1_P) :
    ((P256K1.sqrt a).present = true ↔ IsSquare a) ∧
    ((P256K1.sqrt a).present = true →
      (P256K1.sqrt a).t * (P256K1.sqrt a).t = a) := by
  haveI hfp : Fact (Nat.Prime p256k1_P) := ⟨p256k1_P_prime⟩
  constructor
  · constructor
    · intro h
      have ht := (p256_sqrt_present_iff_check a).mp h
      exact ⟨(P256K1.sqrt a).t, ht.symm⟩
    · intro hsq
      rw [p256_sqrt_present_iff_check]
      rw [p256_sqrt_t_eq]
      rcases eq_or_ne a 0 with h0 | h0
      · subst h0
        rw [zero_pow (by decide)]
        ring
      · rw [← pow_add]
        have h2E : (p256k1_P + 1) / 4 + (p256k1_P + 1) / 4 = p256k1_P / 2 + 1 := by decide
        rw [h2E, pow_succ]
        have heuler := (ZMod.euler_criterion p256k1_P h0).mp hsq
        rw [heuler, one_mul]
  · intro h
    exact (p256_sqrt_present_iff_check a).mp h

/-- C3: for both square-root-capable fields in the sources (p256k1 and
p192k1), `sqrt` returns a present `CtOption` exactly when the element
is a quadratic residue, and whenever present the returned root r
satisfies r * r = a; the implementation validates its addition-chain
candidate by squaring and comparing with the input before setting the
presence flag. -/
theorem sqrt_present_iff_square_and_valid :
    (∀ a : ZMod p192k1_P, ((P192K1.sqrt a).present = true ↔ IsSquare a) ∧
      ((P192K1.sqrt a).present = true →
        (P192K1.sqrt a).t * (P192K1.sqrt a).t = a)) ∧
    (∀ a : ZMod p256k1_P, ((P256K1.sqrt a).present = true ↔ IsSquare a) ∧
      ((P256K1.sqrt a).present = true →
        (P256K1.sqrt a).t * (P256K1.sqrt a).t = a)) :=
  ⟨p192_sqrt_spec_aux, p256_sqrt_spec_aux⟩
